import Mathlib

/-!
# Mach7 `exp.cpp`: extensible visitor dispatch and structural decomposition

A shallow embedding of `src/code/exp.cpp`.

* A node is a value of `Expr`; its constructor is the node's dynamic class.  The two group
  roots `ExtendedExpr1` and `ExtendedExpr2` are concrete classes in the source, so they are
  constructors as well; the nine catalogue kinds are the remaining ones.
* Every C++ function is one Lean function of the same name.  A virtual call is a case
  analysis on the dynamic class of the receiver.
* Every function takes a fuel argument that bounds the depth of the call stack: entering a
  function costs one unit, and a function entered with no fuel left yields `out_of_fuel`.
  A run that ends with any other outcome is a terminating run of the C++ program.
* C++ leaves the order in which the two operands of `+` are evaluated unspecified.  The
  parameter `ord` decides, for each pair of operand nodes, whether the second operand is
  evaluated first; every theorem below holds for every `ord`.
* The namespace `Heap` repeats the formatters for nodes whose operand members are pointers
  that can be null; on trees without a null operand the two agree (`heap_agrees`).
-/

namespace Mach7

/-! ## Data model -/

/-- Nodes of the expression hierarchy (`struct Expr` and its subclasses).  Operands are the
`const Expr*` members `exp1`, `exp2`; `Value` carries the `int value` member. -/
inductive Expr where
  | Value (value : Int)
  | Plus (exp1 exp2 : Expr)
  | Minus (exp1 exp2 : Expr)
  | Mult (exp1 exp2 : Expr)
  | Div (exp1 exp2 : Expr)
  | ExtendedExpr1
  | Mod (exp1 exp2 : Expr)
  | Pow (exp1 exp2 : Expr)
  | ExtendedExpr2
  | Min (exp1 exp2 : Expr)
  | Max (exp1 exp2 : Expr)
  deriving DecidableEq, Repr

/-- A node seen through a `const ExtendedExpr1&`: an instance of `ExtendedExpr1` itself
(`root`) or of one of the classes derived from it. -/
inductive ExtendedExpr1 where
  | root
  | Mod (exp1 exp2 : Expr)
  | Pow (exp1 exp2 : Expr)
  deriving DecidableEq, Repr

/-- A node seen through a `const ExtendedExpr2&`: an instance of `ExtendedExpr2` itself
(`root`) or of one of the classes derived from it. -/
inductive ExtendedExpr2 where
  | root
  | Min (exp1 exp2 : Expr)
  | Max (exp1 exp2 : Expr)
  deriving DecidableEq, Repr

/-- The classes of the hierarchy, used to name a node's runtime kind. -/
inductive Class where
  | Expr | Value | Plus | Minus | Mult | Div
  | ExtendedExpr1 | Mod | Pow
  | ExtendedExpr2 | Min | Max
  deriving DecidableEq, Repr

/-- Values that the program throws: `throw 5;` / `throw 6;` / `throw 7;` throw an `int`,
a failed `dynamic_cast` to a reference type throws `std::bad_cast`.  `NoMatchingCase` is the
failure of the decomposition facility, which the spec describes (the header defining
`Match` is not part of the sources). -/
inductive Exception where
  | int (code : Int)
  | bad_cast
  | NoMatchingCase (kind : Class)
  deriving DecidableEq, Repr

/-- How a call ends: it returns a value, it leaves by an exception, it runs into undefined
behaviour (signed overflow, division by zero), or the fuel does not suffice. -/
inductive Outcome (α : Type) where
  | returned (a : α)
  | thrown (x : Exception)
  | undefined
  | out_of_fuel
  deriving DecidableEq, Repr

/-- Sequencing: the continuation runs only after a normal return. -/
def Outcome.bind {α β : Type} : Outcome α → (α → Outcome β) → Outcome β
  | .returned a, f => f a
  | .thrown x, _ => .thrown x
  | .undefined, _ => .undefined
  | .out_of_fuel, _ => .out_of_fuel

/-- Apply a function to the returned value. -/
def Outcome.map {α β : Type} (f : α → β) : Outcome α → Outcome β
  | .returned a => .returned (f a)
  | .thrown x => .thrown x
  | .undefined => .undefined
  | .out_of_fuel => .out_of_fuel

/-- Two operand computations of one expression, in the order chosen by `second_first`. -/
def Outcome.both {α β : Type} (second_first : Bool) (x : Outcome α) (y : Outcome β) :
    Outcome (α × β) :=
  if second_first then y.bind fun b => x.bind fun a => .returned (a, b)
  else x.bind fun a => y.bind fun b => .returned (a, b)

/-- Evaluation order of operand pairs: `ord e1 e2 = true` when the computation on `e2` runs
before the one on `e1`. -/
abbrev ArgOrder := Expr → Expr → Bool

/-- The concrete visitor classes of the program. -/
inductive VisitorClass where
  | ToStrVisitor
  | Extended1ToStrVisitor
  | Extended2ToStrVisitor
  deriving DecidableEq, Repr

/-- A visitor object: its dynamic class and the data member `std::string result`. -/
structure Visitor where
  cls : VisitorClass
  result : String
  deriving DecidableEq, Repr

/-- The narrowing check `dynamic_cast<const ExtendedExpr1&>(e)`; `none` is `std::bad_cast`. -/
def dynamic_cast_ExtendedExpr1 : Expr → Option ExtendedExpr1
  | .ExtendedExpr1 => some .root
  | .Mod a b => some (.Mod a b)
  | .Pow a b => some (.Pow a b)
  | _ => none

/-- The narrowing check `dynamic_cast<const ExtendedExpr2&>(e)`; `none` is `std::bad_cast`. -/
def dynamic_cast_ExtendedExpr2 : Expr → Option ExtendedExpr2
  | .ExtendedExpr2 => some .root
  | .Min a b => some (.Min a b)
  | .Max a b => some (.Max a b)
  | _ => none

/-- The upcast `static_cast<const Expr&>(e)` of a `const ExtendedExpr1&`. -/
def ExtendedExpr1.static_cast_Expr : ExtendedExpr1 → Expr
  | .root => .ExtendedExpr1
  | .Mod a b => .Mod a b
  | .Pow a b => .Pow a b

/-- The upcast `static_cast<const Expr&>(e)` of a `const ExtendedExpr2&`. -/
def ExtendedExpr2.static_cast_Expr : ExtendedExpr2 → Expr
  | .root => .ExtendedExpr2
  | .Min a b => .Min a b
  | .Max a b => .Max a b

/-- Body of `ExprVisitor::visit(const Expr&)`: `throw 5;`. -/
def ExprVisitor.visit_Expr : Outcome Visitor := .thrown (.int 5)

/-- Body of `ExtendedExpr1Visitor::visit(const ExtendedExpr1&)`: `throw 6;`.  It is
overridden by `Extended1ToStrVisitor`, the only concrete class deriving from it. -/
def ExtendedExpr1Visitor.visit_ExtendedExpr1 : Outcome Visitor := .thrown (.int 6)

/-- Body of `ExtendedExpr2Visitor::visit(const ExtendedExpr2&)`: `throw 7;`.  It is
overridden by `Extended2ToStrVisitor`, the only concrete class deriving from it. -/
def ExtendedExpr2Visitor.visit_ExtendedExpr2 : Outcome Visitor := .thrown (.int 7)

/-! ## The formatters -/

mutual

/-- The function `std::string to_str(const Expr* e)`:
`ToStrVisitor v; e->accept(v); return v.result;` -/
def to_str (ord : ArgOrder) : Nat → Expr → Outcome String
  | 0, _ => .out_of_fuel
  | n + 1, e => (Expr.accept ord n e ⟨.ToStrVisitor, ""⟩).map Visitor.result

/-- The function `std::string to_str_ex1(const Expr* e)`:
`Extended1ToStrVisitor v; e->accept(v); return v.result;` -/
def to_str_ex1 (ord : ArgOrder) : Nat → Expr → Outcome String
  | 0, _ => .out_of_fuel
  | n + 1, e => (Expr.accept ord n e ⟨.Extended1ToStrVisitor, ""⟩).map Visitor.result

/-- The function `std::string to_str_ex2(const Expr* e)`:
`Extended2ToStrVisitor v; e->accept(v); return v.result;` -/
def to_str_ex2 (ord : ArgOrder) : Nat → Expr → Outcome String
  | 0, _ => .out_of_fuel
  | n + 1, e => (Expr.accept ord n e ⟨.Extended2ToStrVisitor, ""⟩).map Visitor.result

/-- The virtual `evaluate(const Expr* e) const`: `ToStrVisitor` returns `to_str(e)`,
`Extended1ToStrVisitor` returns `to_str_ex1(e)`, `Extended2ToStrVisitor` `to_str_ex2(e)`. -/
def evaluate (ord : ArgOrder) : Nat → Visitor → Expr → Outcome String
  | 0, _, _ => .out_of_fuel
  | n + 1, v, e =>
    match v.cls with
    | .ToStrVisitor => to_str ord n e
    | .Extended1ToStrVisitor => to_str_ex1 ord n e
    | .Extended2ToStrVisitor => to_str_ex2 ord n e

/-- The virtual `accept(ExprVisitor& v) const { v.visit(*this); }`.  In `Value` .. `Div` the
static type of `*this` selects the overload for that class; in `ExtendedExpr1` and
`ExtendedExpr2` (inherited by `Mod`, `Pow`, `Min`, `Max`) the only viable overload of
`ExprVisitor` is `visit(const Expr&)`. -/
def Expr.accept (ord : ArgOrder) : Nat → Expr → Visitor → Outcome Visitor
  | 0, _, _ => .out_of_fuel
  | n + 1, .Value value, v => visit_Value n value v
  | n + 1, .Plus exp1 exp2, v => visit_Plus ord n exp1 exp2 v
  | n + 1, .Minus exp1 exp2, v => visit_Minus ord n exp1 exp2 v
  | n + 1, .Mult exp1 exp2, v => visit_Mult ord n exp1 exp2 v
  | n + 1, .Div exp1 exp2, v => visit_Div ord n exp1 exp2 v
  | n + 1, .ExtendedExpr1, v => visit_Expr ord n .ExtendedExpr1 v
  | n + 1, .Mod exp1 exp2, v => visit_Expr ord n (.Mod exp1 exp2) v
  | n + 1, .Pow exp1 exp2, v => visit_Expr ord n (.Pow exp1 exp2) v
  | n + 1, .ExtendedExpr2, v => visit_Expr ord n .ExtendedExpr2 v
  | n + 1, .Min exp1 exp2, v => visit_Expr ord n (.Min exp1 exp2) v
  | n + 1, .Max exp1 exp2, v => visit_Expr ord n (.Max exp1 exp2) v

/-- The virtual `visit(const Expr&)`, the unknown-kind case.  Its final overrider is
`ExprVisitor::visit` in `ToStrVisitor`, `ExtendedExpr1Visitor::visit` in
`Extended1ToStrVisitor` (`dynamic_cast<const ExtendedExpr1&>(e).accept(*this);`) and
`ExtendedExpr2Visitor::visit` in `Extended2ToStrVisitor`. -/
def visit_Expr (ord : ArgOrder) : Nat → Expr → Visitor → Outcome Visitor
  | 0, _, _ => .out_of_fuel
  | n + 1, e, v =>
    match v.cls with
    | .ToStrVisitor => ExprVisitor.visit_Expr
    | .Extended1ToStrVisitor =>
      match dynamic_cast_ExtendedExpr1 e with
      | none => .thrown .bad_cast
      | some x => ExtendedExpr1.accept ord n x v
    | .Extended2ToStrVisitor =>
      match dynamic_cast_ExtendedExpr2 e with
      | none => .thrown .bad_cast
      | some x => ExtendedExpr2.accept ord n x v

/-- Member `ToStrVisitor::visit(const Value& e)`: `result = "X";` (the payload is not
written: `std::to_string(e.value)` is commented out in the source). -/
def visit_Value : Nat → Int → Visitor → Outcome Visitor
  | 0, _, _ => .out_of_fuel
  | _ + 1, _, v => .returned ⟨v.cls, "X"⟩

/-- Member `ToStrVisitor::visit(const Plus& e)`:
`result = '(' + evaluate(e.exp1) + '+' + evaluate(e.exp2) + ')';` -/
def visit_Plus (ord : ArgOrder) : Nat → Expr → Expr → Visitor → Outcome Visitor
  | 0, _, _, _ => .out_of_fuel
  | n + 1, exp1, exp2, v =>
    (Outcome.both (ord exp1 exp2) (evaluate ord n v exp1) (evaluate ord n v exp2)).map
      fun s => ⟨v.cls, "(" ++ s.1 ++ "+" ++ s.2 ++ ")"⟩

/-- Member `ToStrVisitor::visit(const Minus& e)`:
`result = '(' + evaluate(e.exp1) + '-' + evaluate(e.exp2) + ')';` -/
def visit_Minus (ord : ArgOrder) : Nat → Expr → Expr → Visitor → Outcome Visitor
  | 0, _, _, _ => .out_of_fuel
  | n + 1, exp1, exp2, v =>
    (Outcome.both (ord exp1 exp2) (evaluate ord n v exp1) (evaluate ord n v exp2)).map
      fun s => ⟨v.cls, "(" ++ s.1 ++ "-" ++ s.2 ++ ")"⟩

/-- Member `ToStrVisitor::visit(const Mult& e)`:
`result = '(' + evaluate(e.exp1) + '*' + evaluate(e.exp2) + ')';` -/
def visit_Mult (ord : ArgOrder) : Nat → Expr → Expr → Visitor → Outcome Visitor
  | 0, _, _, _ => .out_of_fuel
  | n + 1, exp1, exp2, v =>
    (Outcome.both (ord exp1 exp2) (evaluate ord n v exp1) (evaluate ord n v exp2)).map
      fun s => ⟨v.cls, "(" ++ s.1 ++ "*" ++ s.2 ++ ")"⟩

/-- Member `ToStrVisitor::visit(const Div& e)`:
`result = '(' + evaluate(e.exp1) + '/' + evaluate(e.exp2) + ')';` -/
def visit_Div (ord : ArgOrder) : Nat → Expr → Expr → Visitor → Outcome Visitor
  | 0, _, _, _ => .out_of_fuel
  | n + 1, exp1, exp2, v =>
    (Outcome.both (ord exp1 exp2) (evaluate ord n v exp1) (evaluate ord n v exp2)).map
      fun s => ⟨v.cls, "(" ++ s.1 ++ "/" ++ s.2 ++ ")"⟩

/-- The virtual `accept(ExtendedExpr1Visitor& v) const { v.visit(*this); }`, declared in
`ExtendedExpr1` (overload `visit(const ExtendedExpr1&)`) and overridden in `Mod` and `Pow`
(overloads `visit(const Mod&)`, `visit(const Pow&)`). -/
def ExtendedExpr1.accept (ord : ArgOrder) : Nat → ExtendedExpr1 → Visitor → Outcome Visitor
  | 0, _, _ => .out_of_fuel
  | n + 1, .root, v => visit_ExtendedExpr1 ord n .root v
  | n + 1, .Mod exp1 exp2, v => visit_Mod ord n exp1 exp2 v
  | n + 1, .Pow exp1 exp2, v => visit_Pow ord n exp1 exp2 v

/-- Member `Extended1ToStrVisitor::visit(const ExtendedExpr1& e)`:
`visit(static_cast<const Expr&>(e));`, a virtual call of `visit(const Expr&)`. -/
def visit_ExtendedExpr1 (ord : ArgOrder) : Nat → ExtendedExpr1 → Visitor → Outcome Visitor
  | 0, _, _ => .out_of_fuel
  | n + 1, e, v => visit_Expr ord n e.static_cast_Expr v

/-- Member `Extended1ToStrVisitor::visit(const Mod& e)`:
`result = '(' + evaluate(e.exp1) + '%' + evaluate(e.exp2) + ')';` -/
def visit_Mod (ord : ArgOrder) : Nat → Expr → Expr → Visitor → Outcome Visitor
  | 0, _, _, _ => .out_of_fuel
  | n + 1, exp1, exp2, v =>
    (Outcome.both (ord exp1 exp2) (evaluate ord n v exp1) (evaluate ord n v exp2)).map
      fun s => ⟨v.cls, "(" ++ s.1 ++ "%" ++ s.2 ++ ")"⟩

/-- Member `Extended1ToStrVisitor::visit(const Pow& e)`:
`result = '(' + evaluate(e.exp1) + '^' + evaluate(e.exp2) + ')';` -/
def visit_Pow (ord : ArgOrder) : Nat → Expr → Expr → Visitor → Outcome Visitor
  | 0, _, _, _ => .out_of_fuel
  | n + 1, exp1, exp2, v =>
    (Outcome.both (ord exp1 exp2) (evaluate ord n v exp1) (evaluate ord n v exp2)).map
      fun s => ⟨v.cls, "(" ++ s.1 ++ "^" ++ s.2 ++ ")"⟩

/-- The virtual `accept(ExtendedExpr2Visitor& v) const { v.visit(*this); }`, declared in
`ExtendedExpr2` and overridden in `Min` and `Max`. -/
def ExtendedExpr2.accept (ord : ArgOrder) : Nat → ExtendedExpr2 → Visitor → Outcome Visitor
  | 0, _, _ => .out_of_fuel
  | n + 1, .root, v => visit_ExtendedExpr2 ord n .root v
  | n + 1, .Min exp1 exp2, v => visit_Min ord n exp1 exp2 v
  | n + 1, .Max exp1 exp2, v => visit_Max ord n exp1 exp2 v

/-- Member `Extended2ToStrVisitor::visit(const ExtendedExpr2& e)`:
`visit(static_cast<const Expr&>(e));`, a virtual call of `visit(const Expr&)`. -/
def visit_ExtendedExpr2 (ord : ArgOrder) : Nat → ExtendedExpr2 → Visitor → Outcome Visitor
  | 0, _, _ => .out_of_fuel
  | n + 1, e, v => visit_Expr ord n e.static_cast_Expr v

/-- Member `Extended2ToStrVisitor::visit(const Min& e)`:
`result = "min(" + evaluate(e.exp1) + ',' + evaluate(e.exp2) + ')';` -/
def visit_Min (ord : ArgOrder) : Nat → Expr → Expr → Visitor → Outcome Visitor
  | 0, _, _, _ => .out_of_fuel
  | n + 1, exp1, exp2, v =>
    (Outcome.both (ord exp1 exp2) (evaluate ord n v exp1) (evaluate ord n v exp2)).map
      fun s => ⟨v.cls, "min(" ++ s.1 ++ "," ++ s.2 ++ ")"⟩

/-- Member `Extended2ToStrVisitor::visit(const Max& e)`:
`result = "max(" + evaluate(e.exp1) + ',' + evaluate(e.exp2) + ')';` -/
def visit_Max (ord : ArgOrder) : Nat → Expr → Expr → Visitor → Outcome Visitor
  | 0, _, _, _ => .out_of_fuel
  | n + 1, exp1, exp2, v =>
    (Outcome.both (ord exp1 exp2) (evaluate ord n v exp1) (evaluate ord n v exp2)).map
      fun s => ⟨v.cls, "max(" ++ s.1 ++ "," ++ s.2 ++ ")"⟩

end

/-- Left-to-right evaluation of operands. -/
def leftToRight : ArgOrder := fun _ _ => false

/-- Right-to-left evaluation of operands. -/
def rightToLeft : ArgOrder := fun _ _ => true

/-! ## The trees built in `main` -/

/-- In `main`: `Expr* a = new Value(17);` -/
def main.a : Expr := .Value 17

/-- In `main`: `Expr* b = new Value(25);` -/
def main.b : Expr := .Value 25

/-- In `main`: `Expr* c = new Plus(a,b);` -/
def main.c : Expr := .Plus main.a main.b

/-- In `main`: `Expr* d1 = new Mod(b,c);` -/
def main.d1 : Expr := .Mod main.b main.c

/-- In `main`: `Expr* e1 = new Minus(c,d1);` -/
def main.e1 : Expr := .Minus main.c main.d1

/-- In `main`: `Expr* d2 = new Min(b,c);` -/
def main.d2 : Expr := .Min main.b main.c

/-- In `main`: `Expr* e2 = new Minus(c,d2);` -/
def main.e2 : Expr := .Minus main.c main.d2

/-- In `main`: `Expr* e = new Plus(d1,d2);` -/
def main.e : Expr := .Plus main.d1 main.d2

/-! ## Vocabulary of the claims -/

/-- Number of nodes on the longest path from the node down to a leaf. -/
def Expr.height : Expr → Nat
  | .Value _ => 1
  | .Plus a b => max a.height b.height + 1
  | .Minus a b => max a.height b.height + 1
  | .Mult a b => max a.height b.height + 1
  | .Div a b => max a.height b.height + 1
  | .ExtendedExpr1 => 1
  | .Mod a b => max a.height b.height + 1
  | .Pow a b => max a.height b.height + 1
  | .ExtendedExpr2 => 1
  | .Min a b => max a.height b.height + 1
  | .Max a b => max a.height b.height + 1

/-- The tree is built only from the original group: `Value`, `Plus`, `Minus`, `Mult`, `Div`. -/
def Expr.originalOnly : Expr → Bool
  | .Value _ => true
  | .Plus a b => a.originalOnly && b.originalOnly
  | .Minus a b => a.originalOnly && b.originalOnly
  | .Mult a b => a.originalOnly && b.originalOnly
  | .Div a b => a.originalOnly && b.originalOnly
  | _ => false

/-- The tree is built only from the original group and extension group 1 (`Mod`, `Pow`). -/
def Expr.originalOrGroup1 : Expr → Bool
  | .Value _ => true
  | .Plus a b => a.originalOrGroup1 && b.originalOrGroup1
  | .Minus a b => a.originalOrGroup1 && b.originalOrGroup1
  | .Mult a b => a.originalOrGroup1 && b.originalOrGroup1
  | .Div a b => a.originalOrGroup1 && b.originalOrGroup1
  | .Mod a b => a.originalOrGroup1 && b.originalOrGroup1
  | .Pow a b => a.originalOrGroup1 && b.originalOrGroup1
  | _ => false

/-- The tree is built only from the original group and extension group 2 (`Min`, `Max`). -/
def Expr.originalOrGroup2 : Expr → Bool
  | .Value _ => true
  | .Plus a b => a.originalOrGroup2 && b.originalOrGroup2
  | .Minus a b => a.originalOrGroup2 && b.originalOrGroup2
  | .Mult a b => a.originalOrGroup2 && b.originalOrGroup2
  | .Div a b => a.originalOrGroup2 && b.originalOrGroup2
  | .Min a b => a.originalOrGroup2 && b.originalOrGroup2
  | .Max a b => a.originalOrGroup2 && b.originalOrGroup2
  | _ => false

/-- The tree is built only from the nine catalogue kinds: no node is an instance of a bare
group root `ExtendedExpr1` or `ExtendedExpr2`. -/
def Expr.catalogue : Expr → Bool
  | .Value _ => true
  | .Plus a b => a.catalogue && b.catalogue
  | .Minus a b => a.catalogue && b.catalogue
  | .Mult a b => a.catalogue && b.catalogue
  | .Div a b => a.catalogue && b.catalogue
  | .Mod a b => a.catalogue && b.catalogue
  | .Pow a b => a.catalogue && b.catalogue
  | .Min a b => a.catalogue && b.catalogue
  | .Max a b => a.catalogue && b.catalogue
  | _ => false

/-- Some node of the tree is a `Mod` or a `Pow`. -/
def Expr.containsGroup1 : Expr → Bool
  | .Value _ => false
  | .Plus a b => a.containsGroup1 || b.containsGroup1
  | .Minus a b => a.containsGroup1 || b.containsGroup1
  | .Mult a b => a.containsGroup1 || b.containsGroup1
  | .Div a b => a.containsGroup1 || b.containsGroup1
  | .ExtendedExpr1 => false
  | .Mod _ _ => true
  | .Pow _ _ => true
  | .ExtendedExpr2 => false
  | .Min a b => a.containsGroup1 || b.containsGroup1
  | .Max a b => a.containsGroup1 || b.containsGroup1

/-- Some node of the tree is a `Min` or a `Max`. -/
def Expr.containsGroup2 : Expr → Bool
  | .Value _ => false
  | .Plus a b => a.containsGroup2 || b.containsGroup2
  | .Minus a b => a.containsGroup2 || b.containsGroup2
  | .Mult a b => a.containsGroup2 || b.containsGroup2
  | .Div a b => a.containsGroup2 || b.containsGroup2
  | .ExtendedExpr1 => false
  | .Mod a b => a.containsGroup2 || b.containsGroup2
  | .Pow a b => a.containsGroup2 || b.containsGroup2
  | .ExtendedExpr2 => false
  | .Min _ _ => true
  | .Max _ _ => true

/-- The recursive reference rendering `R` of the claims: a leaf is the token `X`, the
operators of the original group and of group 1 are written infix inside parentheses, `Min`
and `Max` as calls.  The bare group roots have no rendering; the claims never format them and
the empty string stands there. -/
def Expr.render : Expr → String
  | .Value _ => "X"
  | .Plus l r => "(" ++ l.render ++ "+" ++ r.render ++ ")"
  | .Minus l r => "(" ++ l.render ++ "-" ++ r.render ++ ")"
  | .Mult l r => "(" ++ l.render ++ "*" ++ r.render ++ ")"
  | .Div l r => "(" ++ l.render ++ "/" ++ r.render ++ ")"
  | .ExtendedExpr1 => ""
  | .Mod l r => "(" ++ l.render ++ "%" ++ r.render ++ ")"
  | .Pow l r => "(" ++ l.render ++ "^" ++ r.render ++ ")"
  | .ExtendedExpr2 => ""
  | .Min l r => "min(" ++ l.render ++ "," ++ r.render ++ ")"
  | .Max l r => "max(" ++ l.render ++ "," ++ r.render ++ ")"

/-- The trees a visitor class has a case for at every node. -/
def VisitorClass.handles : VisitorClass → Expr → Bool
  | .ToStrVisitor, t => t.originalOnly
  | .Extended1ToStrVisitor, t => t.originalOrGroup1
  | .Extended2ToStrVisitor, t => t.originalOrGroup2

/-- The exception with which the unknown-kind case of a visitor class rejects a catalogue
node: `throw 5` in the base protocol, `std::bad_cast` in the two extension protocols. -/
def VisitorClass.rejection : VisitorClass → Exception
  | .ToStrVisitor => .int 5
  | .Extended1ToStrVisitor => .bad_cast
  | .Extended2ToStrVisitor => .bad_cast

/-- The formatter that `evaluate` of a visitor class calls. -/
def VisitorClass.formatter (ord : ArgOrder) : VisitorClass → Nat → Expr → Outcome String
  | .ToStrVisitor => to_str ord
  | .Extended1ToStrVisitor => to_str_ex1 ord
  | .Extended2ToStrVisitor => to_str_ex2 ord

/-! ## Auxiliary definitions for the proofs -/

/-- Shape of the result of a binary case: prefix, first operand, separator, second operand,
closing parenthesis. -/
def join (pre sep : String) (s : String × String) : String :=
  pre ++ s.1 ++ sep ++ s.2 ++ ")"

/-- The node's class is one of the original group. -/
def Expr.isOriginal : Expr → Bool
  | .Value _ | .Plus _ _ | .Minus _ _ | .Mult _ _ | .Div _ _ => true
  | _ => false

/-! ## Structure of a tree and a reader of renderings -/

/-- The structure of a tree: the class of every node and the nesting, payloads erased. -/
def Expr.shape : Expr → Expr
  | .Value _ => .Value 0
  | .Plus a b => .Plus a.shape b.shape
  | .Minus a b => .Minus a.shape b.shape
  | .Mult a b => .Mult a.shape b.shape
  | .Div a b => .Div a.shape b.shape
  | .ExtendedExpr1 => .ExtendedExpr1
  | .Mod a b => .Mod a.shape b.shape
  | .Pow a b => .Pow a.shape b.shape
  | .ExtendedExpr2 => .ExtendedExpr2
  | .Min a b => .Min a.shape b.shape
  | .Max a b => .Max a.shape b.shape

/-- Recursive-descent reader of the text of an original-group tree: it consumes one
rendering from the front of the input and gives the structure read and the rest of the
input.  The fuel bounds the nesting depth. -/
def parse : Nat → List Char → Option (Expr × List Char)
  | 0, _ => none
  | _ + 1, [] => none
  | n + 1, c :: rest =>
    if c = 'X' then some (.Value 0, rest)
    else if c = '(' then
      match parse n rest with
      | some (l, op :: rest1) =>
        match parse n rest1 with
        | some (r, close :: rest2) =>
          if close = ')' then
            if op = '+' then some (.Plus l r, rest2)
            else if op = '-' then some (.Minus l r, rest2)
            else if op = '*' then some (.Mult l r, rest2)
            else if op = '/' then some (.Div l r, rest2)
            else none
          else none
        | _ => none
      | _ => none
    else none

/-- Read a whole string as one rendering. -/
def reparse (s : String) : Option Expr :=
  match parse s.length s.data with
  | some (t, []) => some t
  | _ => none

/-! ## Structural decomposition and `eval` -/

/-- The runtime class of a node. -/
def Expr.kind : Expr → Class
  | .Value _ => .Value
  | .Plus _ _ => .Plus
  | .Minus _ _ => .Minus
  | .Mult _ _ => .Mult
  | .Div _ _ => .Div
  | .ExtendedExpr1 => .ExtendedExpr1
  | .Mod _ _ => .Mod
  | .Pow _ _ => .Pow
  | .ExtendedExpr2 => .ExtendedExpr2
  | .Min _ _ => .Min
  | .Max _ _ => .Max

/-- Modelled from the spec: a case of a `Match` statement (the header `match_generic.hpp`
that defines `Match`, `Case`, `EndMatch` and `CM` is not among the sources).  A case names a
kind that declares its components and carries the body, a function of the bound components;
`Otherwise` is a catch-all case.  The kinds that can be named are those with a
`match_members` specialisation in `exp.cpp`: `Value` (position 0 is `value`) and `Plus`,
`Minus`, `Mult`, `Div` (position 0 is `exp1`, position 1 is `exp2`). -/
inductive Case (α : Type) where
  | Value (body : Int → α)
  | Plus (body : Expr → Expr → α)
  | Minus (body : Expr → Expr → α)
  | Mult (body : Expr → Expr → α)
  | Div (body : Expr → Expr → α)
  | Otherwise (body : α)

/-- Modelled from the spec: one case tested against a node.  When the node's runtime kind is
the named kind, the components are bound by position, in the order of `match_members`, and
the body runs; otherwise the case does not fire. -/
def Case.fire {α : Type} : Case α → Expr → Option α
  | .Value body, .Value value => some (body value)
  | .Plus body, .Plus exp1 exp2 => some (body exp1 exp2)
  | .Minus body, .Minus exp1 exp2 => some (body exp1 exp2)
  | .Mult body, .Mult exp1 exp2 => some (body exp1 exp2)
  | .Div body, .Div exp1 exp2 => some (body exp1 exp2)
  | .Otherwise body, _ => some body
  | _, _ => none

/-- Modelled from the spec: `Match(e) { Case ... } EndMatch`.  The cases are tested in the
order written and the first one that fires decides; when none fires the statement fails with
`NoMatchingCase` carrying the node's runtime kind. -/
def Match {α : Type} (e : Expr) : List (Case (Outcome α)) → Outcome α
  | [] => .thrown (.NoMatchingCase e.kind)
  | c :: cs =>
    match c.fire e with
    | some r => r
    | none => Match e cs

/-- Least value of `int` (32 bits). -/
def INT_MIN : Int := -2147483648

/-- Greatest value of `int` (32 bits). -/
def INT_MAX : Int := 2147483647

/-- The integer is representable in `int`. -/
def fits_int (z : Int) : Bool := decide (INT_MIN ≤ z) && decide (z ≤ INT_MAX)

/-- An `int` operation whose exact result is `z`: the result when representable, undefined
behaviour on overflow. -/
def int_result (z : Int) : Outcome Int :=
  if fits_int z then .returned z else .undefined

/-- Division `x / y` on `int`: undefined for a zero divisor, otherwise the quotient truncated toward
zero (undefined when it overflows, `INT_MIN / -1`). -/
def int_div (x y : Int) : Outcome Int :=
  if y = 0 then .undefined else int_result (Int.tdiv x y)

/-- The function `eval` of `exp.cpp`:
```
Match(e) {
  Case(Value,n)   return n;
  Case(Plus, a,b) return eval(a) + eval(b);
  Case(Minus,a,b) return eval(a) - eval(b);
  Case(Mult, a,b) return eval(a) * eval(b);
  Case(Div,  a,b) return eval(a) / eval(b);
} EndMatch
```
The two recursive calls of a case are evaluated in the order given by `ord`. -/
def eval (ord : ArgOrder) : Nat → Expr → Outcome Int
  | 0, _ => .out_of_fuel
  | k + 1, e =>
    Match e
      [ .Value fun n => .returned n,
        .Plus fun a b =>
          (Outcome.both (ord a b) (eval ord k a) (eval ord k b)).bind
            fun p => int_result (p.1 + p.2),
        .Minus fun a b =>
          (Outcome.both (ord a b) (eval ord k a) (eval ord k b)).bind
            fun p => int_result (p.1 - p.2),
        .Mult fun a b =>
          (Outcome.both (ord a b) (eval ord k a) (eval ord k b)).bind
            fun p => int_result (p.1 * p.2),
        .Div fun a b =>
          (Outcome.both (ord a b) (eval ord k a) (eval ord k b)).bind
            fun p => int_div p.1 p.2 ]



/-! ## Reference arithmetic -/

/-- The arithmetic value of an original-group tree over the mathematical integers, as the
claim words it: a leaf is its payload, `Plus`, `Minus`, `Mult` are sum, difference (first
operand minus second) and product, `Div` is the quotient truncated toward zero. -/
def Expr.value : Expr → Int
  | .Value n => n
  | .Plus a b => a.value + b.value
  | .Minus a b => a.value - b.value
  | .Mult a b => a.value * b.value
  | .Div a b => Int.tdiv a.value b.value
  | _ => 0

/-- The side conditions of the claim on an original-group tree: every intermediate result
is representable in `int`, and no divisor evaluates to zero. -/
def Expr.safe : Expr → Bool
  | .Value _ => true
  | .Plus a b => a.safe && b.safe && fits_int (a.value + b.value)
  | .Minus a b => a.safe && b.safe && fits_int (a.value - b.value)
  | .Mult a b => a.safe && b.safe && fits_int (a.value * b.value)
  | .Div a b =>
    a.safe && b.safe && decide (b.value ≠ 0) && fits_int (Int.tdiv a.value b.value)
  | _ => false

/-! ## Vocabulary of the claims on decomposition -/

/-- The kind that a case names; the catch-all case names none. -/
def Case.named {α : Type} : Case α → Option Class
  | .Value _ => some .Value
  | .Plus _ => some .Plus
  | .Minus _ => some .Minus
  | .Mult _ => some .Mult
  | .Div _ => some .Div
  | .Otherwise _ => none

/-- The test of a case against a node, in the words of the spec: the named kind is the
node's runtime kind; a catch-all case matches every node. -/
def Case.matches {α : Type} (c : Case α) (e : Expr) : Bool :=
  match c.named with
  | none => true
  | some K => decide (K = e.kind)

/-- The five cases written in `eval`, in their order, with `self` for the recursive calls
`eval(a)`, `eval(b)`. -/
def eval_cases (ord : ArgOrder) (self : Expr → Outcome Int) : List (Case (Outcome Int)) :=
  [ .Value fun n => .returned n,
    .Plus fun a b =>
      (Outcome.both (ord a b) (self a) (self b)).bind fun p => int_result (p.1 + p.2),
    .Minus fun a b =>
      (Outcome.both (ord a b) (self a) (self b)).bind fun p => int_result (p.1 - p.2),
    .Mult fun a b =>
      (Outcome.both (ord a b) (self a) (self b)).bind fun p => int_result (p.1 * p.2),
    .Div fun a b =>
      (Outcome.both (ord a b) (self a) (self b)).bind fun p => int_div p.1 p.2 ]

/-- The call throws nothing but `x`: if it leaves by an exception, the exception is `x`. -/
def Outcome.throwsOnly {α : Type} (x : Exception) (o : Outcome α) : Prop :=
  ∀ y, o = .thrown y → y = x

/-! ## Nodes with pointer members

The trees above have two present operands at every composite node.  The constructors of the
source take `const Expr*` arguments, which can be null.  The namespace `Heap` repeats the
data model and the formatters for nodes whose operand members are pointers, `none` being
the null pointer. -/

namespace Heap

/-- A node object: the members `exp1`, `exp2` of a composite node are `const Expr*` values,
`none` the null pointer and `some e` the address of the node `e`. -/
inductive Expr where
  | Value (value : Int)
  | Plus (exp1 exp2 : Option Expr)
  | Minus (exp1 exp2 : Option Expr)
  | Mult (exp1 exp2 : Option Expr)
  | Div (exp1 exp2 : Option Expr)
  | ExtendedExpr1
  | Mod (exp1 exp2 : Option Expr)
  | Pow (exp1 exp2 : Option Expr)
  | ExtendedExpr2
  | Min (exp1 exp2 : Option Expr)
  | Max (exp1 exp2 : Option Expr)

/-- Constructor `Plus(const Expr* e1, const Expr* e2) : exp1(e1), exp2(e2) {}`: the members
are initialised from the arguments and the body is empty. -/
def new_Plus (e1 e2 : Option Expr) : Outcome Expr := .returned (.Plus e1 e2)

/-- Constructor `Minus(const Expr* e1, const Expr* e2) : exp1(e1), exp2(e2) {}`. -/
def new_Minus (e1 e2 : Option Expr) : Outcome Expr := .returned (.Minus e1 e2)

/-- Constructor `Mult(const Expr* e1, const Expr* e2) : exp1(e1), exp2(e2) {}`. -/
def new_Mult (e1 e2 : Option Expr) : Outcome Expr := .returned (.Mult e1 e2)

/-- Constructor `Div(const Expr* e1, const Expr* e2) : exp1(e1), exp2(e2) {}`. -/
def new_Div (e1 e2 : Option Expr) : Outcome Expr := .returned (.Div e1 e2)

/-- Constructor `Mod(const Expr* e1, const Expr* e2) : exp1(e1), exp2(e2) {}`. -/
def new_Mod (e1 e2 : Option Expr) : Outcome Expr := .returned (.Mod e1 e2)

/-- Constructor `Pow(const Expr* e1, const Expr* e2) : exp1(e1), exp2(e2) {}`. -/
def new_Pow (e1 e2 : Option Expr) : Outcome Expr := .returned (.Pow e1 e2)

/-- Constructor `Min(const Expr* e1, const Expr* e2) : exp1(e1), exp2(e2) {}`. -/
def new_Min (e1 e2 : Option Expr) : Outcome Expr := .returned (.Min e1 e2)

/-- Constructor `Max(const Expr* e1, const Expr* e2) : exp1(e1), exp2(e2) {}`. -/
def new_Max (e1 e2 : Option Expr) : Outcome Expr := .returned (.Max e1 e2)

/-- A node with pointer members seen through a `const ExtendedExpr1&`. -/
inductive ExtendedExpr1 where
  | root
  | Mod (exp1 exp2 : Option Expr)
  | Pow (exp1 exp2 : Option Expr)

/-- The narrowing check `dynamic_cast<const ExtendedExpr1&>(e)` on a node with pointer
members; `none` is `std::bad_cast`. -/
def dynamic_cast_ExtendedExpr1 : Expr → Option ExtendedExpr1
  | .ExtendedExpr1 => some .root
  | .Mod a b => some (.Mod a b)
  | .Pow a b => some (.Pow a b)
  | _ => none

/-- The upcast `static_cast<const Expr&>(e)` of a `const ExtendedExpr1&`. -/
def ExtendedExpr1.static_cast_Expr : ExtendedExpr1 → Expr
  | .root => .ExtendedExpr1
  | .Mod a b => .Mod a b
  | .Pow a b => .Pow a b

/-- A node with pointer members seen through a `const ExtendedExpr2&`. -/
inductive ExtendedExpr2 where
  | root
  | Min (exp1 exp2 : Option Expr)
  | Max (exp1 exp2 : Option Expr)

/-- The narrowing check `dynamic_cast<const ExtendedExpr2&>(e)` on a node with pointer
members; `none` is `std::bad_cast`. -/
def dynamic_cast_ExtendedExpr2 : Expr → Option ExtendedExpr2
  | .ExtendedExpr2 => some .root
  | .Min a b => some (.Min a b)
  | .Max a b => some (.Max a b)
  | _ => none

/-- The upcast `static_cast<const Expr&>(e)` of a `const ExtendedExpr2&`. -/
def ExtendedExpr2.static_cast_Expr : ExtendedExpr2 → Expr
  | .root => .ExtendedExpr2
  | .Min a b => .Min a b
  | .Max a b => .Max a b

/-- Evaluation order of operand pairs, given the two operand pointers. -/
abbrev ArgOrder := Option Expr → Option Expr → Bool

mutual

/-- The function `to_str` on a pointer: `ToStrVisitor v; e->accept(v); return v.result;`.
The call `e->accept(v)` through a null pointer is undefined behaviour. -/
def to_str (ord : ArgOrder) : Nat → Option Expr → Outcome String
  | 0, _ => .out_of_fuel
  | _ + 1, none => .undefined
  | n + 1, some e => (Expr.accept ord n e ⟨.ToStrVisitor, ""⟩).map Visitor.result

/-- The function `to_str_ex1` on a pointer:
`Extended1ToStrVisitor v; e->accept(v); return v.result;`. -/
def to_str_ex1 (ord : ArgOrder) : Nat → Option Expr → Outcome String
  | 0, _ => .out_of_fuel
  | _ + 1, none => .undefined
  | n + 1, some e => (Expr.accept ord n e ⟨.Extended1ToStrVisitor, ""⟩).map Visitor.result

/-- The function `to_str_ex2` on a pointer:
`Extended2ToStrVisitor v; e->accept(v); return v.result;`. -/
def to_str_ex2 (ord : ArgOrder) : Nat → Option Expr → Outcome String
  | 0, _ => .out_of_fuel
  | _ + 1, none => .undefined
  | n + 1, some e => (Expr.accept ord n e ⟨.Extended2ToStrVisitor, ""⟩).map Visitor.result

/-- The virtual `evaluate(const Expr* e) const` on a pointer. -/
def evaluate (ord : ArgOrder) : Nat → Visitor → Option Expr → Outcome String
  | 0, _, _ => .out_of_fuel
  | n + 1, v, e =>
    match v.cls with
    | .ToStrVisitor => to_str ord n e
    | .Extended1ToStrVisitor => to_str_ex1 ord n e
    | .Extended2ToStrVisitor => to_str_ex2 ord n e

/-- The virtual `accept(ExprVisitor& v) const { v.visit(*this); }` on a node with pointer
members. -/
def Expr.accept (ord : ArgOrder) : Nat → Expr → Visitor → Outcome Visitor
  | 0, _, _ => .out_of_fuel
  | n + 1, .Value value, v => visit_Value n value v
  | n + 1, .Plus exp1 exp2, v => visit_Plus ord n exp1 exp2 v
  | n + 1, .Minus exp1 exp2, v => visit_Minus ord n exp1 exp2 v
  | n + 1, .Mult exp1 exp2, v => visit_Mult ord n exp1 exp2 v
  | n + 1, .Div exp1 exp2, v => visit_Div ord n exp1 exp2 v
  | n + 1, .ExtendedExpr1, v => visit_Expr ord n .ExtendedExpr1 v
  | n + 1, .Mod exp1 exp2, v => visit_Expr ord n (.Mod exp1 exp2) v
  | n + 1, .Pow exp1 exp2, v => visit_Expr ord n (.Pow exp1 exp2) v
  | n + 1, .ExtendedExpr2, v => visit_Expr ord n .ExtendedExpr2 v
  | n + 1, .Min exp1 exp2, v => visit_Expr ord n (.Min exp1 exp2) v
  | n + 1, .Max exp1 exp2, v => visit_Expr ord n (.Max exp1 exp2) v

/-- The virtual `visit(const Expr&)`, the unknown-kind case, on a node with pointer
members. -/
def visit_Expr (ord : ArgOrder) : Nat → Expr → Visitor → Outcome Visitor
  | 0, _, _ => .out_of_fuel
  | n + 1, e, v =>
    match v.cls with
    | .ToStrVisitor => ExprVisitor.visit_Expr
    | .Extended1ToStrVisitor =>
      match dynamic_cast_ExtendedExpr1 e with
      | none => .thrown .bad_cast
      | some x => ExtendedExpr1.accept ord n x v
    | .Extended2ToStrVisitor =>
      match dynamic_cast_ExtendedExpr2 e with
      | none => .thrown .bad_cast
      | some x => ExtendedExpr2.accept ord n x v

/-- Member `ToStrVisitor::visit(const Value& e)`: `result = "X";`. -/
def visit_Value : Nat → Int → Visitor → Outcome Visitor
  | 0, _, _ => .out_of_fuel
  | _ + 1, _, v => .returned ⟨v.cls, "X"⟩

/-- Member `ToStrVisitor::visit(const Plus& e)` on a node with pointer members. -/
def visit_Plus (ord : ArgOrder) : Nat → Option Expr → Option Expr → Visitor → Outcome Visitor
  | 0, _, _, _ => .out_of_fuel
  | n + 1, exp1, exp2, v =>
    (Outcome.both (ord exp1 exp2) (evaluate ord n v exp1) (evaluate ord n v exp2)).map
      fun s => ⟨v.cls, "(" ++ s.1 ++ "+" ++ s.2 ++ ")"⟩

/-- Member `ToStrVisitor::visit(const Minus& e)` on a node with pointer members. -/
def visit_Minus (ord : ArgOrder) : Nat → Option Expr → Option Expr → Visitor → Outcome Visitor
  | 0, _, _, _ => .out_of_fuel
  | n + 1, exp1, exp2, v =>
    (Outcome.both (ord exp1 exp2) (evaluate ord n v exp1) (evaluate ord n v exp2)).map
      fun s => ⟨v.cls, "(" ++ s.1 ++ "-" ++ s.2 ++ ")"⟩

/-- Member `ToStrVisitor::visit(const Mult& e)` on a node with pointer members. -/
def visit_Mult (ord : ArgOrder) : Nat → Option Expr → Option Expr → Visitor → Outcome Visitor
  | 0, _, _, _ => .out_of_fuel
  | n + 1, exp1, exp2, v =>
    (Outcome.both (ord exp1 exp2) (evaluate ord n v exp1) (evaluate ord n v exp2)).map
      fun s => ⟨v.cls, "(" ++ s.1 ++ "*" ++ s.2 ++ ")"⟩

/-- Member `ToStrVisitor::visit(const Div& e)` on a node with pointer members. -/
def visit_Div (ord : ArgOrder) : Nat → Option Expr → Option Expr → Visitor → Outcome Visitor
  | 0, _, _, _ => .out_of_fuel
  | n + 1, exp1, exp2, v =>
    (Outcome.both (ord exp1 exp2) (evaluate ord n v exp1) (evaluate ord n v exp2)).map
      fun s => ⟨v.cls, "(" ++ s.1 ++ "/" ++ s.2 ++ ")"⟩

/-- The virtual `accept(ExtendedExpr1Visitor& v) const` on a node with pointer members. -/
def ExtendedExpr1.accept (ord : ArgOrder) : Nat → ExtendedExpr1 → Visitor → Outcome Visitor
  | 0, _, _ => .out_of_fuel
  | n + 1, .root, v => visit_ExtendedExpr1 ord n .root v
  | n + 1, .Mod exp1 exp2, v => visit_Mod ord n exp1 exp2 v
  | n + 1, .Pow exp1 exp2, v => visit_Pow ord n exp1 exp2 v

/-- Member `Extended1ToStrVisitor::visit(const ExtendedExpr1& e)` on a node with pointer
members. -/
def visit_ExtendedExpr1 (ord : ArgOrder) : Nat → ExtendedExpr1 → Visitor → Outcome Visitor
  | 0, _, _ => .out_of_fuel
  | n + 1, e, v => visit_Expr ord n e.static_cast_Expr v

/-- Member `Extended1ToStrVisitor::visit(const Mod& e)` on a node with pointer members. -/
def visit_Mod (ord : ArgOrder) : Nat → Option Expr → Option Expr → Visitor → Outcome Visitor
  | 0, _, _, _ => .out_of_fuel
  | n + 1, exp1, exp2, v =>
    (Outcome.both (ord exp1 exp2) (evaluate ord n v exp1) (evaluate ord n v exp2)).map
      fun s => ⟨v.cls, "(" ++ s.1 ++ "%" ++ s.2 ++ ")"⟩

/-- Member `Extended1ToStrVisitor::visit(const Pow& e)` on a node with pointer members. -/
def visit_Pow (ord : ArgOrder) : Nat → Option Expr → Option Expr → Visitor → Outcome Visitor
  | 0, _, _, _ => .out_of_fuel
  | n + 1, exp1, exp2, v =>
    (Outcome.both (ord exp1 exp2) (evaluate ord n v exp1) (evaluate ord n v exp2)).map
      fun s => ⟨v.cls, "(" ++ s.1 ++ "^" ++ s.2 ++ ")"⟩

/-- The virtual `accept(ExtendedExpr2Visitor& v) const` on a node with pointer members. -/
def ExtendedExpr2.accept (ord : ArgOrder) : Nat → ExtendedExpr2 → Visitor → Outcome Visitor
  | 0, _, _ => .out_of_fuel
  | n + 1, .root, v => visit_ExtendedExpr2 ord n .root v
  | n + 1, .Min exp1 exp2, v => visit_Min ord n exp1 exp2 v
  | n + 1, .Max exp1 exp2, v => visit_Max ord n exp1 exp2 v

/-- Member `Extended2ToStrVisitor::visit(const ExtendedExpr2& e)` on a node with pointer
members. -/
def visit_ExtendedExpr2 (ord : ArgOrder) : Nat → ExtendedExpr2 → Visitor → Outcome Visitor
  | 0, _, _ => .out_of_fuel
  | n + 1, e, v => visit_Expr ord n e.static_cast_Expr v

/-- Member `Extended2ToStrVisitor::visit(const Min& e)` on a node with pointer members. -/
def visit_Min (ord : ArgOrder) : Nat → Option Expr → Option Expr → Visitor → Outcome Visitor
  | 0, _, _, _ => .out_of_fuel
  | n + 1, exp1, exp2, v =>
    (Outcome.both (ord exp1 exp2) (evaluate ord n v exp1) (evaluate ord n v exp2)).map
      fun s => ⟨v.cls, "min(" ++ s.1 ++ "," ++ s.2 ++ ")"⟩

/-- Member `Extended2ToStrVisitor::visit(const Max& e)` on a node with pointer members. -/
def visit_Max (ord : ArgOrder) : Nat → Option Expr → Option Expr → Visitor → Outcome Visitor
  | 0, _, _, _ => .out_of_fuel
  | n + 1, exp1, exp2, v =>
    (Outcome.both (ord exp1 exp2) (evaluate ord n v exp1) (evaluate ord n v exp2)).map
      fun s => ⟨v.cls, "max(" ++ s.1 ++ "," ++ s.2 ++ ")"⟩

end

/-- Left-to-right evaluation of operands. -/
def leftToRight : ArgOrder := fun _ _ => false

/-- Right-to-left evaluation of operands. -/
def rightToLeft : ArgOrder := fun _ _ => true

end Heap

/-- The node object of a tree: every composite node is constructed from the addresses of
the objects of its two operands, so no member is null. -/
def Expr.object : Expr → Heap.Expr
  | .Value x => .Value x
  | .Plus a b => .Plus (some a.object) (some b.object)
  | .Minus a b => .Minus (some a.object) (some b.object)
  | .Mult a b => .Mult (some a.object) (some b.object)
  | .Div a b => .Div (some a.object) (some b.object)
  | .ExtendedExpr1 => .ExtendedExpr1
  | .Mod a b => .Mod (some a.object) (some b.object)
  | .Pow a b => .Pow (some a.object) (some b.object)
  | .ExtendedExpr2 => .ExtendedExpr2
  | .Min a b => .Min (some a.object) (some b.object)
  | .Max a b => .Max (some a.object) (some b.object)

/-- The node object of a tree seen through a `const ExtendedExpr1&`. -/
def ExtendedExpr1.object : ExtendedExpr1 → Heap.ExtendedExpr1
  | .root => .root
  | .Mod a b => .Mod (some a.object) (some b.object)
  | .Pow a b => .Pow (some a.object) (some b.object)

/-- The node object of a tree seen through a `const ExtendedExpr2&`. -/
def ExtendedExpr2.object : ExtendedExpr2 → Heap.ExtendedExpr2
  | .root => .root
  | .Min a b => .Min (some a.object) (some b.object)
  | .Max a b => .Max (some a.object) (some b.object)

/-- The evaluation order on trees that an evaluation order on pointers gives on the
addresses of their node objects. -/
def treeOrder (ord : Heap.ArgOrder) : ArgOrder :=
  fun a b => ord (some a.object) (some b.object)

/-! ## Properties of the formatters -/

theorem evaluate_succ (ord : ArgOrder) (n : Nat) (v : Visitor) (e : Expr) :
    evaluate ord (n + 1) v e = v.cls.formatter ord n e := by
  cases v with
  | mk c r => cases c <;> simp [evaluate, VisitorClass.formatter]

theorem formatter_succ (ord : ArgOrder) (V : VisitorClass) (n : Nat) (e : Expr) :
    V.formatter ord (n + 1) e = (Expr.accept ord n e ⟨V, ""⟩).map Visitor.result := by
  cases V <;> simp [VisitorClass.formatter, to_str, to_str_ex1, to_str_ex2]

theorem formatter_Plus (ord : ArgOrder) (V : VisitorClass) (m : Nat) (a b : Expr) :
    V.formatter ord (m + 4) (.Plus a b)
      = (Outcome.both (ord a b) (V.formatter ord m a) (V.formatter ord m b)).map
          (join "(" "+") := by
  simp only [formatter_succ, Expr.accept, visit_Plus, evaluate_succ]
  cases Outcome.both (ord a b) (V.formatter ord m a) (V.formatter ord m b) <;>
    simp [Outcome.map, join]

theorem formatter_Minus (ord : ArgOrder) (V : VisitorClass) (m : Nat) (a b : Expr) :
    V.formatter ord (m + 4) (.Minus a b)
      = (Outcome.both (ord a b) (V.formatter ord m a) (V.formatter ord m b)).map
          (join "(" "-") := by
  simp only [formatter_succ, Expr.accept, visit_Minus, evaluate_succ]
  cases Outcome.both (ord a b) (V.formatter ord m a) (V.formatter ord m b) <;>
    simp [Outcome.map, join]

theorem formatter_Mult (ord : ArgOrder) (V : VisitorClass) (m : Nat) (a b : Expr) :
    V.formatter ord (m + 4) (.Mult a b)
      = (Outcome.both (ord a b) (V.formatter ord m a) (V.formatter ord m b)).map
          (join "(" "*") := by
  simp only [formatter_succ, Expr.accept, visit_Mult, evaluate_succ]
  cases Outcome.both (ord a b) (V.formatter ord m a) (V.formatter ord m b) <;>
    simp [Outcome.map, join]

theorem formatter_Div (ord : ArgOrder) (V : VisitorClass) (m : Nat) (a b : Expr) :
    V.formatter ord (m + 4) (.Div a b)
      = (Outcome.both (ord a b) (V.formatter ord m a) (V.formatter ord m b)).map
          (join "(" "/") := by
  simp only [formatter_succ, Expr.accept, visit_Div, evaluate_succ]
  cases Outcome.both (ord a b) (V.formatter ord m a) (V.formatter ord m b) <;>
    simp [Outcome.map, join]

theorem to_str_ex1_Mod (ord : ArgOrder) (m : Nat) (a b : Expr) :
    to_str_ex1 ord (m + 6) (.Mod a b)
      = (Outcome.both (ord a b) (to_str_ex1 ord m a) (to_str_ex1 ord m b)).map (join "(" "%") := by
  simp only [to_str_ex1, Expr.accept, visit_Expr, dynamic_cast_ExtendedExpr1,
    ExtendedExpr1.accept, visit_Mod, evaluate_succ, VisitorClass.formatter]
  cases Outcome.both (ord a b) (to_str_ex1 ord m a) (to_str_ex1 ord m b) <;>
    simp [Outcome.map, join]

theorem to_str_ex1_Pow (ord : ArgOrder) (m : Nat) (a b : Expr) :
    to_str_ex1 ord (m + 6) (.Pow a b)
      = (Outcome.both (ord a b) (to_str_ex1 ord m a) (to_str_ex1 ord m b)).map (join "(" "^") := by
  simp only [to_str_ex1, Expr.accept, visit_Expr, dynamic_cast_ExtendedExpr1,
    ExtendedExpr1.accept, visit_Pow, evaluate_succ, VisitorClass.formatter]
  cases Outcome.both (ord a b) (to_str_ex1 ord m a) (to_str_ex1 ord m b) <;>
    simp [Outcome.map, join]

theorem to_str_ex2_Min (ord : ArgOrder) (m : Nat) (a b : Expr) :
    to_str_ex2 ord (m + 6) (.Min a b)
      = (Outcome.both (ord a b) (to_str_ex2 ord m a) (to_str_ex2 ord m b)).map (join "min(" ",") := by
  simp only [to_str_ex2, Expr.accept, visit_Expr, dynamic_cast_ExtendedExpr2,
    ExtendedExpr2.accept, visit_Min, evaluate_succ, VisitorClass.formatter]
  cases Outcome.both (ord a b) (to_str_ex2 ord m a) (to_str_ex2 ord m b) <;>
    simp [Outcome.map, join]

theorem to_str_ex2_Max (ord : ArgOrder) (m : Nat) (a b : Expr) :
    to_str_ex2 ord (m + 6) (.Max a b)
      = (Outcome.both (ord a b) (to_str_ex2 ord m a) (to_str_ex2 ord m b)).map (join "max(" ",") := by
  simp only [to_str_ex2, Expr.accept, visit_Expr, dynamic_cast_ExtendedExpr2,
    ExtendedExpr2.accept, visit_Max, evaluate_succ, VisitorClass.formatter]
  cases Outcome.both (ord a b) (to_str_ex2 ord m a) (to_str_ex2 ord m b) <;>
    simp [Outcome.map, join]

theorem formatter_Value (ord : ArgOrder) (V : VisitorClass) (m : Nat) (x : Int) :
    V.formatter ord (m + 3) (.Value x) = .returned "X" := by
  cases V <;> simp [formatter_succ, Expr.accept, visit_Value, Outcome.map]

theorem to_str_unknown (ord : ArgOrder) (m : Nat) (e : Expr) (h : e.isOriginal = false) :
    to_str ord (m + 3) e = .thrown (.int 5) := by
  cases e <;> simp [Expr.isOriginal] at h <;>
    simp [to_str, Expr.accept, visit_Expr, ExprVisitor.visit_Expr, Outcome.map]

theorem to_str_ex1_unknown (ord : ArgOrder) (m : Nat) (e : Expr) (h : e.isOriginal = false)
    (hc : dynamic_cast_ExtendedExpr1 e = none) :
    to_str_ex1 ord (m + 3) e = .thrown .bad_cast := by
  cases e <;> simp [Expr.isOriginal] at h <;> simp [dynamic_cast_ExtendedExpr1] at hc <;>
    simp [to_str_ex1, Expr.accept, visit_Expr, dynamic_cast_ExtendedExpr1, Outcome.map]

theorem to_str_ex2_unknown (ord : ArgOrder) (m : Nat) (e : Expr) (h : e.isOriginal = false)
    (hc : dynamic_cast_ExtendedExpr2 e = none) :
    to_str_ex2 ord (m + 3) e = .thrown .bad_cast := by
  cases e <;> simp [Expr.isOriginal] at h <;> simp [dynamic_cast_ExtendedExpr2] at hc <;>
    simp [to_str_ex2, Expr.accept, visit_Expr, dynamic_cast_ExtendedExpr2, Outcome.map]

/-- Outcome of two operand computations that each either return or throw the one exception
`x`: the order of the two does not show. -/
theorem both_returned_or {α β : Type} (o c d : Bool) (a : α) (b : β) (x : Exception) :
    Outcome.both o (if c then .returned a else .thrown x) (if d then .returned b else .thrown x)
      = if (c && d) then .returned (a, b) else .thrown x := by
  cases o <;> cases c <;> cases d <;> simp [Outcome.both, Outcome.bind]

theorem map_returned_or {α β : Type} (f : α → β) (c : Bool) (a : α) (x : Exception) :
    (if c then Outcome.returned a else .thrown x).map f
      = if c then .returned (f a) else .thrown x := by
  cases c <;> simp [Outcome.map]

/-- The formatter of a visitor class on a catalogue tree: with fuel `6 * height` it returns
the reference rendering when the class handles every node of the tree, and otherwise throws
the class's rejection. -/
theorem formatter_catalogue (ord : ArgOrder) (V : VisitorClass) :
    ∀ (t : Expr), t.catalogue = true → ∀ n, 6 * t.height ≤ n →
      V.formatter ord n t
        = if V.handles t then .returned t.render else .thrown V.rejection := by
  intro t
  induction t with
  | Value x =>
    intro _ n hn
    obtain ⟨m, rfl⟩ : ∃ m, n = m + 3 := ⟨n - 3, by simp [Expr.height] at hn; omega⟩
    rw [formatter_Value]
    cases V <;> rfl
  | Plus a b iha ihb =>
    intro hc n hn
    simp only [Expr.catalogue, Bool.and_eq_true] at hc
    simp only [Expr.height] at hn
    obtain ⟨m, rfl⟩ : ∃ m, n = m + 4 := ⟨n - 4, by omega⟩
    rw [formatter_Plus, iha hc.1 m (by omega), ihb hc.2 m (by omega), both_returned_or,
      map_returned_or]
    cases V <;> rfl
  | Minus a b iha ihb =>
    intro hc n hn
    simp only [Expr.catalogue, Bool.and_eq_true] at hc
    simp only [Expr.height] at hn
    obtain ⟨m, rfl⟩ : ∃ m, n = m + 4 := ⟨n - 4, by omega⟩
    rw [formatter_Minus, iha hc.1 m (by omega), ihb hc.2 m (by omega), both_returned_or,
      map_returned_or]
    cases V <;> rfl
  | Mult a b iha ihb =>
    intro hc n hn
    simp only [Expr.catalogue, Bool.and_eq_true] at hc
    simp only [Expr.height] at hn
    obtain ⟨m, rfl⟩ : ∃ m, n = m + 4 := ⟨n - 4, by omega⟩
    rw [formatter_Mult, iha hc.1 m (by omega), ihb hc.2 m (by omega), both_returned_or,
      map_returned_or]
    cases V <;> rfl
  | Div a b iha ihb =>
    intro hc n hn
    simp only [Expr.catalogue, Bool.and_eq_true] at hc
    simp only [Expr.height] at hn
    obtain ⟨m, rfl⟩ : ∃ m, n = m + 4 := ⟨n - 4, by omega⟩
    rw [formatter_Div, iha hc.1 m (by omega), ihb hc.2 m (by omega), both_returned_or,
      map_returned_or]
    cases V <;> rfl
  | ExtendedExpr1 => intro hc; simp [Expr.catalogue] at hc
  | Mod a b iha ihb =>
    intro hc n hn
    simp only [Expr.catalogue, Bool.and_eq_true] at hc
    simp only [Expr.height] at hn
    obtain ⟨m, rfl⟩ : ∃ m, n = m + 6 := ⟨n - 6, by omega⟩
    cases V
    · exact to_str_unknown ord (m + 3) (.Mod a b) rfl
    · show to_str_ex1 ord (m + 6) _ = _
      have ha := iha hc.1 m (by omega)
      have hb := ihb hc.2 m (by omega)
      simp only [VisitorClass.formatter] at ha hb
      rw [to_str_ex1_Mod, ha, hb, both_returned_or, map_returned_or]
      rfl
    · exact to_str_ex2_unknown ord (m + 3) (.Mod a b) rfl rfl
  | Pow a b iha ihb =>
    intro hc n hn
    simp only [Expr.catalogue, Bool.and_eq_true] at hc
    simp only [Expr.height] at hn
    obtain ⟨m, rfl⟩ : ∃ m, n = m + 6 := ⟨n - 6, by omega⟩
    cases V
    · exact to_str_unknown ord (m + 3) (.Pow a b) rfl
    · show to_str_ex1 ord (m + 6) _ = _
      have ha := iha hc.1 m (by omega)
      have hb := ihb hc.2 m (by omega)
      simp only [VisitorClass.formatter] at ha hb
      rw [to_str_ex1_Pow, ha, hb, both_returned_or, map_returned_or]
      rfl
    · exact to_str_ex2_unknown ord (m + 3) (.Pow a b) rfl rfl
  | ExtendedExpr2 => intro hc; simp [Expr.catalogue] at hc
  | Min a b iha ihb =>
    intro hc n hn
    simp only [Expr.catalogue, Bool.and_eq_true] at hc
    simp only [Expr.height] at hn
    obtain ⟨m, rfl⟩ : ∃ m, n = m + 6 := ⟨n - 6, by omega⟩
    cases V
    · exact to_str_unknown ord (m + 3) (.Min a b) rfl
    · exact to_str_ex1_unknown ord (m + 3) (.Min a b) rfl rfl
    · show to_str_ex2 ord (m + 6) _ = _
      have ha := iha hc.1 m (by omega)
      have hb := ihb hc.2 m (by omega)
      simp only [VisitorClass.formatter] at ha hb
      rw [to_str_ex2_Min, ha, hb, both_returned_or, map_returned_or]
      rfl
  | Max a b iha ihb =>
    intro hc n hn
    simp only [Expr.catalogue, Bool.and_eq_true] at hc
    simp only [Expr.height] at hn
    obtain ⟨m, rfl⟩ : ∃ m, n = m + 6 := ⟨n - 6, by omega⟩
    cases V
    · exact to_str_unknown ord (m + 3) (.Max a b) rfl
    · exact to_str_ex1_unknown ord (m + 3) (.Max a b) rfl rfl
    · show to_str_ex2 ord (m + 6) _ = _
      have ha := iha hc.1 m (by omega)
      have hb := ihb hc.2 m (by omega)
      simp only [VisitorClass.formatter] at ha hb
      rw [to_str_ex2_Max, ha, hb, both_returned_or, map_returned_or]
      rfl

theorem originalOnly_catalogue : ∀ (t : Expr), t.originalOnly = true → t.catalogue = true := by
  intro t
  induction t <;> simp_all [Expr.originalOnly, Expr.catalogue]

theorem originalOnly_originalOrGroup1 :
    ∀ (t : Expr), t.originalOnly = true → t.originalOrGroup1 = true := by
  intro t
  induction t <;> simp_all [Expr.originalOnly, Expr.originalOrGroup1]

theorem originalOnly_originalOrGroup2 :
    ∀ (t : Expr), t.originalOnly = true → t.originalOrGroup2 = true := by
  intro t
  induction t <;> simp_all [Expr.originalOnly, Expr.originalOrGroup2]

theorem originalOrGroup1_catalogue :
    ∀ (t : Expr), t.originalOrGroup1 = true → t.catalogue = true := by
  intro t
  induction t <;> simp_all [Expr.originalOrGroup1, Expr.catalogue]

theorem originalOrGroup2_catalogue :
    ∀ (t : Expr), t.originalOrGroup2 = true → t.catalogue = true := by
  intro t
  induction t <;> simp_all [Expr.originalOrGroup2, Expr.catalogue]

/-- On a catalogue tree, being built from the original group and group 1 only is the same as
containing no `Min` and no `Max`. -/
theorem originalOrGroup1_eq : ∀ (t : Expr), t.catalogue = true →
    t.originalOrGroup1 = !t.containsGroup2 := by
  intro t
  induction t <;> simp_all [Expr.originalOrGroup1, Expr.catalogue, Expr.containsGroup2]

/-- On a catalogue tree, being built from the original group and group 2 only is the same as
containing no `Mod` and no `Pow`. -/
theorem originalOrGroup2_eq : ∀ (t : Expr), t.catalogue = true →
    t.originalOrGroup2 = !t.containsGroup1 := by
  intro t
  induction t <;> simp_all [Expr.originalOrGroup2, Expr.catalogue, Expr.containsGroup1]

/-- On a catalogue tree, being built from the original group only is the same as containing
no node of an extension group. -/
theorem originalOnly_eq : ∀ (t : Expr), t.catalogue = true →
    t.originalOnly = !(t.containsGroup1 || t.containsGroup2) := by
  intro t
  induction t <;> intro hc <;>
    simp only [Expr.originalOnly, Expr.catalogue, Expr.containsGroup1, Expr.containsGroup2,
      Bool.and_eq_true] at * <;> try rfl
  all_goals first
    | (rename_i a b iha ihb
       rw [iha hc.1, ihb hc.2]
       cases a.containsGroup1 <;> cases a.containsGroup2 <;> cases b.containsGroup1 <;>
         cases b.containsGroup2 <;> rfl)
    | simp at hc
    | simp

/-! ## Claims on the dispatch protocols -/

/-- C1. Base protocol on the original group.  For a node of class `Value`, `Plus`, `Minus`,
`Mult` or `Div`, `accept` on any visitor is the call of the visit case of that class, with
the node's members.  It is not the call of the unknown-kind case `visit(const Expr&)`: on the
base visitor that case throws 5 whatever the node, while `accept` on the root of a tree built
only from the original group ends otherwise.  Consequently `to_str` on such a tree returns a
string, the reference rendering, for every evaluation order and every fuel from `6 * height`
on; it does not throw. -/
theorem C1_original_dispatch (ord : ArgOrder) (t : Expr) (h : t.originalOnly = true)
    (n : Nat) (hn : 6 * t.height ≤ n) :
    (∀ (k : Nat) (v : Visitor),
      (∀ x, Expr.accept ord (k + 1) (.Value x) v = visit_Value k x v) ∧
      (∀ a b, Expr.accept ord (k + 1) (.Plus a b) v = visit_Plus ord k a b v) ∧
      (∀ a b, Expr.accept ord (k + 1) (.Minus a b) v = visit_Minus ord k a b v) ∧
      (∀ a b, Expr.accept ord (k + 1) (.Mult a b) v = visit_Mult ord k a b v) ∧
      (∀ a b, Expr.accept ord (k + 1) (.Div a b) v = visit_Div ord k a b v)) ∧
    (∀ (k : Nat) (e : Expr) (result : String),
      visit_Expr ord (k + 1) e ⟨.ToStrVisitor, result⟩ = .thrown (.int 5)) ∧
    Expr.accept ord n t ⟨.ToStrVisitor, ""⟩ ≠ visit_Expr ord n t ⟨.ToStrVisitor, ""⟩ ∧
    to_str ord n t = .returned t.render ∧
    (∀ x, to_str ord n t ≠ .thrown x) := by
  have hr : ∀ m, 6 * t.height ≤ m → to_str ord m t = .returned t.render := by
    intro m hm
    have := formatter_catalogue ord .ToStrVisitor t (originalOnly_catalogue t h) m hm
    simpa [VisitorClass.formatter, VisitorClass.handles, h] using this
  have hu : ∀ (k : Nat) (e : Expr) (result : String),
      visit_Expr ord (k + 1) e ⟨.ToStrVisitor, result⟩ = .thrown (.int 5) := by
    intro k e result
    simp [visit_Expr, ExprVisitor.visit_Expr]
  refine ⟨fun k v => ⟨?_, ?_, ?_, ?_, ?_⟩, hu, ?_, hr n hn, ?_⟩
  · intro x; simp [Expr.accept]
  · intro a b; simp [Expr.accept]
  · intro a b; simp [Expr.accept]
  · intro a b; simp [Expr.accept]
  · intro a b; simp [Expr.accept]
  · have h1 := hr (n + 1) (by omega)
    obtain ⟨k, rfl⟩ : ∃ k, n = k + 1 :=
      ⟨n - 1, by have : 1 ≤ t.height := by cases t <;> simp [Expr.height]
                 omega⟩
    rw [hu]
    intro hx
    simp [to_str, hx, Outcome.map] at h1
  · intro x; rw [hr n hn]; simp

/-- C1 at `Plus(Value 17, Value 25)`, left-to-right, fuel 12. -/
theorem C1_original_dispatch_witness :
    main.c.originalOnly = true ∧ 6 * main.c.height ≤ 12 ∧
      to_str leftToRight 12 main.c = .returned "(X+X)" :=
  ⟨by decide, by decide,
    (C1_original_dispatch leftToRight main.c (by decide) 12 (by decide)).2.2.2.1⟩

/-- C2. Extension protocols on their own group.  On a tree built only from the original
group and `Mod`, `Pow`, `to_str_ex1` returns the reference rendering `render`: `X` for a leaf,
`(` l op r `)` for `Plus`, `Minus`, `Mult`, `Div` with op `+ - * /`, `(` l `%` r `)` for
`Mod`, `(` l `^` r `)` for `Pow`, the operands rendered by the same function, also when a
`Mod` lies under an original operator.  On a tree built only from the original group and
`Min`, `Max`, `to_str_ex2` returns `render`, which writes `min(` l `,` r `)` and
`max(` l `,` r `)`. -/
theorem C2_extension_rendering (ord : ArgOrder) (t1 t2 : Expr)
    (h1 : t1.originalOrGroup1 = true) (h2 : t2.originalOrGroup2 = true)
    (n1 n2 : Nat) (hn1 : 6 * t1.height ≤ n1) (hn2 : 6 * t2.height ≤ n2) :
    to_str_ex1 ord n1 t1 = .returned t1.render ∧
    to_str_ex2 ord n2 t2 = .returned t2.render := by
  constructor
  · have := formatter_catalogue ord .Extended1ToStrVisitor t1
      (originalOrGroup1_catalogue t1 h1) n1 hn1
    simpa [VisitorClass.formatter, VisitorClass.handles, h1] using this
  · have := formatter_catalogue ord .Extended2ToStrVisitor t2
      (originalOrGroup2_catalogue t2 h2) n2 hn2
    simpa [VisitorClass.formatter, VisitorClass.handles, h2] using this

/-- C2 at the trees `e1 = Minus(c, Mod(b,c))` and `e2 = Minus(c, Min(b,c))` of `main`. -/
theorem C2_extension_rendering_witness :
    main.e1.originalOrGroup1 = true ∧ main.e2.originalOrGroup2 = true ∧
      6 * main.e1.height ≤ 24 ∧ 6 * main.e2.height ≤ 24 ∧
      to_str_ex1 rightToLeft 24 main.e1 = .returned "((X+X)-(X%(X+X)))" ∧
      to_str_ex2 rightToLeft 24 main.e2 = .returned "((X+X)-min(X,(X+X)))" :=
  ⟨by decide, by decide, by decide, by decide,
    C2_extension_rendering rightToLeft main.e1 main.e2 (by decide) (by decide) 24 24
      (by decide) (by decide)⟩

/-- C3. The base protocol fails safely on unknown kinds.  On a catalogue tree, `to_str`
throws 5 (the default of the unknown-kind case) exactly when the tree contains a `Mod`, `Pow`,
`Min` or `Max` node; a tree without such a node is rendered; a tree whose root is not of the
original group throws 5; and no string is returned for a tree containing such a node. -/
theorem C3_base_rejects_extension_kinds (ord : ArgOrder) (t : Expr)
    (hc : t.catalogue = true) (n : Nat) (hn : 6 * t.height ≤ n) :
    (to_str ord n t = .thrown (.int 5) ↔ (t.containsGroup1 || t.containsGroup2) = true) ∧
    ((t.containsGroup1 || t.containsGroup2) = false → to_str ord n t = .returned t.render) ∧
    (t.isOriginal = false → to_str ord n t = .thrown (.int 5)) ∧
    (∀ s, to_str ord n t = .returned s → (t.containsGroup1 || t.containsGroup2) = false) := by
  have hf := formatter_catalogue ord .ToStrVisitor t hc n hn
  simp only [VisitorClass.formatter, VisitorClass.handles, VisitorClass.rejection,
    originalOnly_eq t hc] at hf
  have hroot : t.isOriginal = false → (t.containsGroup1 || t.containsGroup2) = true := by
    intro h
    cases t <;> simp [Expr.isOriginal, Expr.catalogue] at h hc <;>
      simp [Expr.containsGroup1, Expr.containsGroup2]
  cases hx : (t.containsGroup1 || t.containsGroup2) <;> simp [hx] at hf hroot ⊢ <;>
    simp [hf, hroot]

/-- C3 at the tree `e1 = Minus(c, Mod(b,c))` of `main`. -/
theorem C3_base_rejects_extension_kinds_witness :
    main.e1.catalogue = true ∧ 6 * main.e1.height ≤ 24 ∧
      (to_str leftToRight 24 main.e1 = .thrown (.int 5)
        ↔ (main.e1.containsGroup1 || main.e1.containsGroup2) = true) :=
  ⟨by decide, by decide,
    (C3_base_rejects_extension_kinds leftToRight main.e1 (by decide) 24 (by decide)).1⟩


/-- C4. An unrelated extension protocol rejects the node.  `to_str_ex1` on a `Min` or `Max`
node, and `to_str_ex2` on a `Mod` or `Pow` node, throw `std::bad_cast` (the failed narrowing
check) whatever the operands, with fuel 3.  On a catalogue tree `to_str_ex1` throws
`std::bad_cast` exactly when the tree contains a `Min` or `Max` node and otherwise returns the
rendering; `to_str_ex2` throws it exactly when the tree contains a `Mod` or `Pow` node and
otherwise returns the rendering. -/
theorem C4_unrelated_extension_rejected (ord : ArgOrder) (t : Expr)
    (hc : t.catalogue = true) (n : Nat) (hn : 6 * t.height ≤ n) :
    (∀ (a b : Expr) (k : Nat),
      to_str_ex1 ord (k + 3) (.Min a b) = .thrown .bad_cast ∧
      to_str_ex1 ord (k + 3) (.Max a b) = .thrown .bad_cast ∧
      to_str_ex2 ord (k + 3) (.Mod a b) = .thrown .bad_cast ∧
      to_str_ex2 ord (k + 3) (.Pow a b) = .thrown .bad_cast) ∧
    (to_str_ex1 ord n t = .thrown .bad_cast ↔ t.containsGroup2 = true) ∧
    (t.containsGroup2 = false → to_str_ex1 ord n t = .returned t.render) ∧
    (to_str_ex2 ord n t = .thrown .bad_cast ↔ t.containsGroup1 = true) ∧
    (t.containsGroup1 = false → to_str_ex2 ord n t = .returned t.render) := by
  have h1 := formatter_catalogue ord .Extended1ToStrVisitor t hc n hn
  have h2 := formatter_catalogue ord .Extended2ToStrVisitor t hc n hn
  simp only [VisitorClass.formatter, VisitorClass.handles, VisitorClass.rejection,
    originalOrGroup1_eq t hc, originalOrGroup2_eq t hc] at h1 h2
  refine ⟨fun a b k => ⟨?_, ?_, ?_, ?_⟩, ?_, ?_, ?_, ?_⟩
  · exact to_str_ex1_unknown ord k (.Min a b) rfl rfl
  · exact to_str_ex1_unknown ord k (.Max a b) rfl rfl
  · exact to_str_ex2_unknown ord k (.Mod a b) rfl rfl
  · exact to_str_ex2_unknown ord k (.Pow a b) rfl rfl
  · cases hx : t.containsGroup2 <;> simp [hx] at h1 <;> simp [h1]
  · intro hx; simpa [hx] using h1
  · cases hx : t.containsGroup1 <;> simp [hx] at h2 <;> simp [h2]
  · intro hx; simpa [hx] using h2

/-- C4 at the tree `e = Plus(Mod(b,c), Min(b,c))` of `main`, which contains both a group-1
and a group-2 node. -/
theorem C4_unrelated_extension_rejected_witness :
    main.e.catalogue = true ∧ 6 * main.e.height ≤ 24 ∧
      (to_str_ex1 leftToRight 24 main.e = .thrown .bad_cast
        ↔ main.e.containsGroup2 = true) ∧
      (to_str_ex2 leftToRight 24 main.e = .thrown .bad_cast
        ↔ main.e.containsGroup1 = true) :=
  ⟨by decide, by decide,
    (C4_unrelated_extension_rejected leftToRight main.e (by decide) 24 (by decide)).2.1,
    (C4_unrelated_extension_rejected leftToRight main.e (by decide) 24 (by decide)).2.2.2.1⟩

/-- C5. The extension protocols are conservative over the base protocol.  On a tree built
only from the original group, `to_str_ex1` and `to_str_ex2` end as `to_str` does, and `to_str`
returns the rendering (so the three agree on a returned string, not on a lack of fuel). -/
theorem C5_conservative_extension (ord : ArgOrder) (t : Expr) (h : t.originalOnly = true)
    (n : Nat) (hn : 6 * t.height ≤ n) :
    to_str_ex1 ord n t = to_str ord n t ∧ to_str_ex2 ord n t = to_str ord n t ∧
      to_str ord n t = .returned t.render := by
  have hc := originalOnly_catalogue t h
  have h0 := formatter_catalogue ord .ToStrVisitor t hc n hn
  have h1 := formatter_catalogue ord .Extended1ToStrVisitor t hc n hn
  have h2 := formatter_catalogue ord .Extended2ToStrVisitor t hc n hn
  simp only [VisitorClass.formatter, VisitorClass.handles, h,
    originalOnly_originalOrGroup1 t h, originalOnly_originalOrGroup2 t h, if_true]
    at h0 h1 h2
  rw [h0, h1, h2]
  exact ⟨rfl, rfl, rfl⟩

/-- C5 at the tree `c = Plus(Value 17, Value 25)` of `main`. -/
theorem C5_conservative_extension_witness :
    main.c.originalOnly = true ∧ 6 * main.c.height ≤ 12 ∧
      to_str_ex1 leftToRight 12 main.c = to_str leftToRight 12 main.c ∧
      to_str_ex2 leftToRight 12 main.c = to_str leftToRight 12 main.c ∧
      to_str leftToRight 12 main.c = .returned "(X+X)" :=
  ⟨by decide, by decide,
    C5_conservative_extension leftToRight main.c (by decide) 12 (by decide)⟩

/-- C6, as stated, fails: on `e = Plus(Mod(b,c), Min(b,c))` the call `to_str_ex2(e)` does not
return a rendering; under either evaluation order it leaves by `std::bad_cast`. -/
theorem C6_hazard_returns_no_string :
    to_str_ex2 leftToRight 24 main.e = .thrown .bad_cast ∧
    to_str_ex2 rightToLeft 24 main.e = .thrown .bad_cast ∧
    main.e = .Plus (.Mod (.Value 25) (.Plus (.Value 17) (.Value 25)))
      (.Min (.Value 25) (.Plus (.Value 17) (.Value 25))) := by
  decide

/-- C6, amended.  On `e = Plus(Mod(b,c), Min(b,c))`, for every evaluation order and every
fuel from 24 on, `to_str_ex2` throws `std::bad_cast`.  The `Min` operand alone is rendered by
the case of `Min` as `min(X,(X+X))`; the `Mod` operand alone is rejected by the narrowing
check, it has no rendering, not even a placeholder. -/
theorem C6_hazard_throws (ord : ArgOrder) (n : Nat) (hn : 24 ≤ n) :
    to_str_ex2 ord n main.e = .thrown .bad_cast ∧
    to_str_ex2 ord n main.d2 = .returned "min(X,(X+X))" ∧
    to_str_ex2 ord n main.d1 = .thrown .bad_cast := by
  have he := formatter_catalogue ord .Extended2ToStrVisitor main.e (by decide) n
    (by have : main.e.height = 4 := by decide
        omega)
  have hd2 := formatter_catalogue ord .Extended2ToStrVisitor main.d2 (by decide) n
    (by have : main.d2.height = 3 := by decide
        omega)
  have hd1 := formatter_catalogue ord .Extended2ToStrVisitor main.d1 (by decide) n
    (by have : main.d1.height = 3 := by decide
        omega)
  have ke : VisitorClass.handles .Extended2ToStrVisitor main.e = false := by decide
  have kd2 : VisitorClass.handles .Extended2ToStrVisitor main.d2 = true := by decide
  have kd1 : VisitorClass.handles .Extended2ToStrVisitor main.d1 = false := by decide
  have kr : main.d2.render = "min(X,(X+X))" := by decide
  rw [ke] at he
  rw [kd2, kr] at hd2
  rw [kd1] at hd1
  exact ⟨he, hd2, hd1⟩

/-- C6 amended, at right-to-left evaluation and fuel 24. -/
theorem C6_hazard_throws_witness :
    24 ≤ 24 ∧ to_str_ex2 rightToLeft 24 main.e = .thrown .bad_cast ∧
      to_str_ex2 rightToLeft 24 main.d2 = .returned "min(X,(X+X))" ∧
      to_str_ex2 rightToLeft 24 main.d1 = .thrown .bad_cast :=
  ⟨by decide, C6_hazard_throws rightToLeft 24 (by decide)⟩

/-- C7. Dispatch terminates.  On a catalogue tree, with any fuel from `6 * height` on, each
of `to_str`, `to_str_ex1`, `to_str_ex2` ends by returning a string or by throwing (it neither
runs out of fuel nor into undefined behaviour), and ends as it does with fuel `6 * height`.
The unknown-kind case `visit(const Expr&)` of an extension protocol, entered on a node that
the narrowing check rejects, throws `std::bad_cast` at once: it does so with fuel 1
(`k = 0`), which leaves no room for a nested call, so neither `accept` nor
`visit(const Expr&)` is called again on the node. -/
theorem C7_dispatch_terminates (ord : ArgOrder) (t : Expr) (hc : t.catalogue = true)
    (n : Nat) (hn : 6 * t.height ≤ n) :
    (((∃ s, to_str ord n t = .returned s) ∨ (∃ x, to_str ord n t = .thrown x)) ∧
      to_str ord n t = to_str ord (6 * t.height) t) ∧
    (((∃ s, to_str_ex1 ord n t = .returned s) ∨ (∃ x, to_str_ex1 ord n t = .thrown x)) ∧
      to_str_ex1 ord n t = to_str_ex1 ord (6 * t.height) t) ∧
    (((∃ s, to_str_ex2 ord n t = .returned s) ∨ (∃ x, to_str_ex2 ord n t = .thrown x)) ∧
      to_str_ex2 ord n t = to_str_ex2 ord (6 * t.height) t) ∧
    (∀ (e : Expr) (result : String) (k : Nat), dynamic_cast_ExtendedExpr1 e = none →
      visit_Expr ord (k + 1) e ⟨.Extended1ToStrVisitor, result⟩ = .thrown .bad_cast) ∧
    (∀ (e : Expr) (result : String) (k : Nat), dynamic_cast_ExtendedExpr2 e = none →
      visit_Expr ord (k + 1) e ⟨.Extended2ToStrVisitor, result⟩ = .thrown .bad_cast) := by
  have key : ∀ V : VisitorClass,
      ((∃ s, V.formatter ord n t = .returned s) ∨ (∃ x, V.formatter ord n t = .thrown x)) ∧
        V.formatter ord n t = V.formatter ord (6 * t.height) t := by
    intro V
    rw [formatter_catalogue ord V t hc n hn,
      formatter_catalogue ord V t hc (6 * t.height) (Nat.le_refl _)]
    cases V.handles t
    · exact ⟨Or.inr ⟨_, rfl⟩, rfl⟩
    · exact ⟨Or.inl ⟨_, rfl⟩, rfl⟩
  refine ⟨key .ToStrVisitor, key .Extended1ToStrVisitor, key .Extended2ToStrVisitor, ?_, ?_⟩
  · intro e result k h
    simp [visit_Expr, h]
  · intro e result k h
    simp [visit_Expr, h]

/-- C7 at the tree `e = Plus(Mod(b,c), Min(b,c))` of `main`: with fuel 30 the three
formatters end as with fuel 24, and the narrowing check of the group-2 protocol on the `Mod`
operand fails with fuel 1. -/
theorem C7_dispatch_terminates_witness :
    main.e.catalogue = true ∧ 6 * main.e.height ≤ 30 ∧
      to_str leftToRight 30 main.e = to_str leftToRight (6 * main.e.height) main.e ∧
      to_str_ex1 leftToRight 30 main.e = to_str_ex1 leftToRight (6 * main.e.height) main.e ∧
      to_str_ex2 leftToRight 30 main.e = to_str_ex2 leftToRight (6 * main.e.height) main.e ∧
      visit_Expr leftToRight 1 main.d1 ⟨.Extended2ToStrVisitor, ""⟩ = .thrown .bad_cast :=
  ⟨by decide, by decide,
    (C7_dispatch_terminates leftToRight main.e (by decide) 30 (by decide)).1.2,
    (C7_dispatch_terminates leftToRight main.e (by decide) 30 (by decide)).2.1.2,
    (C7_dispatch_terminates leftToRight main.e (by decide) 30 (by decide)).2.2.1.2,
    (C7_dispatch_terminates leftToRight main.e (by decide) 30 (by decide)).2.2.2.2
      main.d1 "" 0 (by decide)⟩

/-- C8, as stated, fails: `to_str(Plus(Value(17), Value(25)))` returns `(X+X)`, which is not
`(17+25)`, and `to_str(Value(17))` returns `X`, which is not the decimal text `17`. -/
theorem C8_payload_not_rendered :
    to_str leftToRight 12 (.Plus (.Value 17) (.Value 25)) = .returned "(X+X)" ∧
    to_str leftToRight 12 (.Plus (.Value 17) (.Value 25)) ≠ .returned "(17+25)" ∧
    to_str leftToRight 12 (.Value 17) = .returned "X" ∧
    to_str leftToRight 12 (.Value 17) ≠ .returned "17" := by
  decide

/-- C8, amended.  Formatting writes every leaf as the token `X`, whatever its payload, and
parenthesises every binary operator: `to_str(Value(n))` returns `X` for every `n`, and
`to_str(Plus(Value(17), Value(25)))` returns `(X+X)`, for every evaluation order and every
fuel that covers the calls (3 for a leaf, 7 for the sum). -/
theorem C8_leaf_token (ord : ArgOrder) (n : Nat) (hn : 7 ≤ n) :
    (∀ x : Int, to_str ord n (.Value x) = .returned "X") ∧
    to_str ord n (.Plus (.Value 17) (.Value 25)) = .returned "(X+X)" := by
  obtain ⟨m, rfl⟩ : ∃ m, n = m + 7 := ⟨n - 7, by omega⟩
  constructor
  · intro x
    exact formatter_Value ord .ToStrVisitor (m + 4) x
  · have h := formatter_Plus ord .ToStrVisitor (m + 3) (.Value 17) (.Value 25)
    rw [formatter_Value ord .ToStrVisitor m 17, formatter_Value ord .ToStrVisitor m 25] at h
    simp only [VisitorClass.formatter] at h
    rw [h]
    cases ord (.Value 17) (.Value 25) <;> rfl

/-- C8 amended, at left-to-right evaluation and fuel 7. -/
theorem C8_leaf_token_witness :
    7 ≤ 7 ∧ to_str leftToRight 7 (.Value 17) = .returned "X" ∧
      to_str leftToRight 7 (.Plus (.Value 17) (.Value 25)) = .returned "(X+X)" :=
  ⟨by decide, (C8_leaf_token leftToRight 7 (by decide)).1 17,
    (C8_leaf_token leftToRight 7 (by decide)).2⟩


/-! ## Round trip of the base formatter -/

theorem render_data_binary (pre sep : String) (a b : String) :
    (pre ++ a ++ sep ++ b ++ ")").data = pre.data ++ (a.data ++ (sep.data ++ (b.data ++ [')'])))
    := by
  simp [String.data_append]

/-- The reader inverts the rendering of original-group trees, leaving the rest of the input. -/
theorem parse_render : ∀ (t : Expr), t.originalOnly = true → ∀ (n : Nat), t.height ≤ n →
    ∀ rest : List Char, parse n (t.render.data ++ rest) = some (t.shape, rest) := by
  intro t
  induction t with
  | Value x =>
    intro _ n hn rest
    obtain ⟨m, rfl⟩ : ∃ m, n = m + 1 := ⟨n - 1, by simp [Expr.height] at hn; omega⟩
    simp [Expr.render, parse, Expr.shape]
  | Plus a b iha ihb =>
    intro h n hn rest
    simp only [Expr.originalOnly, Bool.and_eq_true] at h
    simp only [Expr.height] at hn
    obtain ⟨m, rfl⟩ : ∃ m, n = m + 1 := ⟨n - 1, by omega⟩
    have ha := iha h.1 m (by omega)
    have hb := ihb h.2 m (by omega)
    simp [Expr.render, render_data_binary, parse, Expr.shape, ha, hb]
  | Minus a b iha ihb =>
    intro h n hn rest
    simp only [Expr.originalOnly, Bool.and_eq_true] at h
    simp only [Expr.height] at hn
    obtain ⟨m, rfl⟩ : ∃ m, n = m + 1 := ⟨n - 1, by omega⟩
    have ha := iha h.1 m (by omega)
    have hb := ihb h.2 m (by omega)
    simp [Expr.render, render_data_binary, parse, Expr.shape, ha, hb]
  | Mult a b iha ihb =>
    intro h n hn rest
    simp only [Expr.originalOnly, Bool.and_eq_true] at h
    simp only [Expr.height] at hn
    obtain ⟨m, rfl⟩ : ∃ m, n = m + 1 := ⟨n - 1, by omega⟩
    have ha := iha h.1 m (by omega)
    have hb := ihb h.2 m (by omega)
    simp [Expr.render, render_data_binary, parse, Expr.shape, ha, hb]
  | Div a b iha ihb =>
    intro h n hn rest
    simp only [Expr.originalOnly, Bool.and_eq_true] at h
    simp only [Expr.height] at hn
    obtain ⟨m, rfl⟩ : ∃ m, n = m + 1 := ⟨n - 1, by omega⟩
    have ha := iha h.1 m (by omega)
    have hb := ihb h.2 m (by omega)
    simp [Expr.render, render_data_binary, parse, Expr.shape, ha, hb]
  | _ => intro h; simp [Expr.originalOnly] at h



theorem render_length_binary (pre sep : String) (a b : String) :
    (pre ++ a ++ sep ++ b ++ ")").length = pre.length + a.length + sep.length + b.length + 1
    := by
  show (pre ++ a ++ sep ++ b ++ ")").data.length = _
  rw [render_data_binary]
  simp only [String.length, List.length_append, List.length_singleton]
  omega

theorem height_le_render_length : ∀ (t : Expr), t.originalOnly = true →
    t.height ≤ t.render.length := by
  intro t
  induction t with
  | Value x =>
    intro _
    show 1 ≤ ("X" : String).length
    decide
  | Plus a b iha ihb =>
    intro h
    simp only [Expr.originalOnly, Bool.and_eq_true] at h
    have ha := iha h.1
    have hb := ihb h.2
    simp only [Expr.height, Expr.render, render_length_binary]
    omega
  | Minus a b iha ihb =>
    intro h
    simp only [Expr.originalOnly, Bool.and_eq_true] at h
    have ha := iha h.1
    have hb := ihb h.2
    simp only [Expr.height, Expr.render, render_length_binary]
    omega
  | Mult a b iha ihb =>
    intro h
    simp only [Expr.originalOnly, Bool.and_eq_true] at h
    have ha := iha h.1
    have hb := ihb h.2
    simp only [Expr.height, Expr.render, render_length_binary]
    omega
  | Div a b iha ihb =>
    intro h
    simp only [Expr.originalOnly, Bool.and_eq_true] at h
    have ha := iha h.1
    have hb := ihb h.2
    simp only [Expr.height, Expr.render, render_length_binary]
    omega
  | _ => intro h; simp [Expr.originalOnly] at h

theorem reparse_render (t : Expr) (h : t.originalOnly = true) :
    reparse t.render = some t.shape := by
  have := parse_render t h t.render.length (height_le_render_length t h) []
  simp only [List.append_nil] at this
  simp [reparse, this]

/-- C9. Formatting preserves structure.  For original-group trees `t1`, `t2` and fuel
covering them, `to_str` returns a string from which `reparse` reads back the structure of the
tree (classes and nesting, payloads erased); hence, if `to_str` ends alike on `t1` and on
`t2`, the two trees have the same structure. -/
theorem C9_round_trip (ord : ArgOrder) (t1 t2 : Expr)
    (h1 : t1.originalOnly = true) (h2 : t2.originalOnly = true)
    (n1 n2 : Nat) (hn1 : 6 * t1.height ≤ n1) (hn2 : 6 * t2.height ≤ n2) :
    (∃ s, to_str ord n1 t1 = .returned s ∧ reparse s = some t1.shape) ∧
    (to_str ord n1 t1 = to_str ord n2 t2 → t1.shape = t2.shape) := by
  have e1 := formatter_catalogue ord .ToStrVisitor t1 (originalOnly_catalogue t1 h1) n1 hn1
  have e2 := formatter_catalogue ord .ToStrVisitor t2 (originalOnly_catalogue t2 h2) n2 hn2
  simp only [VisitorClass.formatter, VisitorClass.handles, h1, h2, if_true] at e1 e2
  refine ⟨⟨t1.render, e1, reparse_render t1 h1⟩, ?_⟩
  intro h
  rw [e1, e2] at h
  have hr : t1.render = t2.render := by simpa using h
  have := reparse_render t1 h1
  rw [hr, reparse_render t2 h2] at this
  simpa using this.symm

/-- C9 at two trees that differ in their payloads only. -/
theorem C9_round_trip_witness :
    main.c.originalOnly = true ∧ (Expr.Plus (.Value 1) (.Value 2)).originalOnly = true ∧
      6 * main.c.height ≤ 12 ∧ 6 * (Expr.Plus (.Value 1) (.Value 2)).height ≤ 12 ∧
      (to_str leftToRight 12 main.c = to_str leftToRight 12 (.Plus (.Value 1) (.Value 2)) →
        main.c.shape = (Expr.Plus (.Value 1) (.Value 2)).shape) :=
  ⟨by decide, by decide, by decide, by decide,
    (C9_round_trip leftToRight main.c (.Plus (.Value 1) (.Value 2)) (by decide) (by decide)
      12 12 (by decide) (by decide)).2⟩


/-! ## Claims on `eval` -/

theorem both_returned {α β : Type} (o : Bool) (a : α) (b : β) :
    Outcome.both o (.returned a) (.returned b) = .returned (a, b) := by
  cases o <;> rfl

/-- C10. `eval` computes the arithmetic value of original-group trees, components bound by
position.  On a tree built only from the original group in which every intermediate result
fits `int` and no divisor evaluates to zero, `eval` returns the
arithmetic value of the tree, for every evaluation order and every fuel from the height on.
The value of a leaf is its payload; of `Plus(a,b)`, `Minus(a,b)`, `Mult(a,b)` the sum, the
difference first minus second, the product of the values of `a` and `b`; of `Div(a,b)` the
quotient truncated toward zero. -/
theorem C10_eval_arithmetic (ord : ArgOrder) (t : Expr) (h : t.originalOnly = true)
    (hs : t.safe = true) (n : Nat) (hn : t.height ≤ n) :
    eval ord n t = .returned t.value ∧
    (∀ x, (Expr.Value x).value = x) ∧
    (∀ a b, (Expr.Plus a b).value = a.value + b.value) ∧
    (∀ a b, (Expr.Minus a b).value = a.value - b.value) ∧
    (∀ a b, (Expr.Mult a b).value = a.value * b.value) ∧
    (∀ a b, (Expr.Div a b).value = Int.tdiv a.value b.value) := by
  refine ⟨?_, fun _ => rfl, fun _ _ => rfl, fun _ _ => rfl, fun _ _ => rfl, fun _ _ => rfl⟩
  induction t generalizing n with
  | Value x =>
    obtain ⟨m, rfl⟩ : ∃ m, n = m + 1 := ⟨n - 1, by simp [Expr.height] at hn; omega⟩
    simp [eval, Match, Case.fire, Expr.value]
  | Plus a b iha ihb =>
    simp only [Expr.originalOnly, Bool.and_eq_true] at h
    simp only [Expr.safe, Bool.and_eq_true] at hs
    simp only [Expr.height] at hn
    obtain ⟨m, rfl⟩ : ∃ m, n = m + 1 := ⟨n - 1, by omega⟩
    simp [eval, Match, Case.fire, Expr.value, iha h.1 hs.1.1 m (by omega),
      ihb h.2 hs.1.2 m (by omega), both_returned, Outcome.bind, int_result, hs.2]
  | Minus a b iha ihb =>
    simp only [Expr.originalOnly, Bool.and_eq_true] at h
    simp only [Expr.safe, Bool.and_eq_true] at hs
    simp only [Expr.height] at hn
    obtain ⟨m, rfl⟩ : ∃ m, n = m + 1 := ⟨n - 1, by omega⟩
    simp [eval, Match, Case.fire, Expr.value, iha h.1 hs.1.1 m (by omega),
      ihb h.2 hs.1.2 m (by omega), both_returned, Outcome.bind, int_result, hs.2]
  | Mult a b iha ihb =>
    simp only [Expr.originalOnly, Bool.and_eq_true] at h
    simp only [Expr.safe, Bool.and_eq_true] at hs
    simp only [Expr.height] at hn
    obtain ⟨m, rfl⟩ : ∃ m, n = m + 1 := ⟨n - 1, by omega⟩
    simp [eval, Match, Case.fire, Expr.value, iha h.1 hs.1.1 m (by omega),
      ihb h.2 hs.1.2 m (by omega), both_returned, Outcome.bind, int_result, hs.2]
  | Div a b iha ihb =>
    simp only [Expr.originalOnly, Bool.and_eq_true] at h
    simp only [Expr.safe, Bool.and_eq_true, decide_eq_true_eq] at hs
    simp only [Expr.height] at hn
    obtain ⟨m, rfl⟩ : ∃ m, n = m + 1 := ⟨n - 1, by omega⟩
    simp [eval, Match, Case.fire, Expr.value, iha h.1 hs.1.1.1 m (by omega),
      ihb h.2 hs.1.1.2 m (by omega), both_returned, Outcome.bind, int_div, int_result,
      hs.2, hs.1.2]
  | _ => simp [Expr.originalOnly] at h

/-- C10 at `eval(Plus(Value 17, Value 25)) = 42`, at a difference (first operand minus
second) and at a negative quotient (truncated toward zero). -/
theorem C10_eval_arithmetic_witness :
    main.c.originalOnly = true ∧ main.c.safe = true ∧ main.c.height ≤ 2 ∧
      eval leftToRight 2 main.c = .returned 42 ∧
      eval rightToLeft 2 (.Minus (.Value 7) (.Value 2)) = .returned 5 ∧
      eval rightToLeft 2 (.Div (.Value (-7)) (.Value 2)) = .returned (-3) :=
  ⟨by decide, by decide, by decide,
    (C10_eval_arithmetic leftToRight main.c (by decide) (by decide) 2 (by decide)).1,
    (C10_eval_arithmetic rightToLeft (.Minus (.Value 7) (.Value 2)) (by decide) (by decide) 2
      (by decide)).1,
    (C10_eval_arithmetic rightToLeft (.Div (.Value (-7)) (.Value 2)) (by decide) (by decide) 2
      (by decide)).1⟩

/-! ## Claims on `eval` outside the original group and on failures -/

theorem eval_not_original (ord : ArgOrder) (k : Nat) (e : Expr) (h : e.isOriginal = false) :
    eval ord (k + 1) e = .thrown (.NoMatchingCase e.kind) := by
  cases e <;> simp [Expr.isOriginal] at h <;> simp [eval, Match, Case.fire, Expr.kind]

theorem eval_Plus (ord : ArgOrder) (k : Nat) (a b : Expr) :
    eval ord (k + 1) (.Plus a b)
      = (Outcome.both (ord a b) (eval ord k a) (eval ord k b)).bind
          fun p => int_result (p.1 + p.2) := by
  simp [eval, Match, Case.fire]

theorem eval_Minus (ord : ArgOrder) (k : Nat) (a b : Expr) :
    eval ord (k + 1) (.Minus a b)
      = (Outcome.both (ord a b) (eval ord k a) (eval ord k b)).bind
          fun p => int_result (p.1 - p.2) := by
  simp [eval, Match, Case.fire]

theorem eval_Mult (ord : ArgOrder) (k : Nat) (a b : Expr) :
    eval ord (k + 1) (.Mult a b)
      = (Outcome.both (ord a b) (eval ord k a) (eval ord k b)).bind
          fun p => int_result (p.1 * p.2) := by
  simp [eval, Match, Case.fire]

theorem eval_Div (ord : ArgOrder) (k : Nat) (a b : Expr) :
    eval ord (k + 1) (.Div a b)
      = (Outcome.both (ord a b) (eval ord k a) (eval ord k b)).bind
          fun p => int_div p.1 p.2 := by
  simp [eval, Match, Case.fire]

theorem eval_Value (ord : ArgOrder) (k : Nat) (x : Int) :
    eval ord (k + 1) (.Value x) = .returned x := by
  simp [eval, Match, Case.fire]

/-- A pair of operand computations returns only when both of them return. -/
theorem both_bind_returned {α β γ : Type} (o : Bool) (x : Outcome α) (y : Outcome β)
    (f : α × β → Outcome γ) (z : γ) (h : (Outcome.both o x y).bind f = .returned z) :
    (∃ a, x = .returned a) ∧ (∃ b, y = .returned b) := by
  cases o <;> cases x <;> cases y <;> simp [Outcome.both, Outcome.bind] at h ⊢

/-- A pair of operand computations of which one returns and the other throws `e` throws `e`,
in either order. -/
theorem both_returned_thrown {α β : Type} (o : Bool) (a : α) (e : Exception) :
    Outcome.both o (.returned a) (.thrown e : Outcome β) = .thrown e ∧
    Outcome.both o (.thrown e : Outcome β) (.returned a) = .thrown e := by
  cases o <;> simp [Outcome.both, Outcome.bind]

/-- Whatever the fuel, `eval` returns an integer only on trees of the original group. -/
theorem eval_returned_originalOnly (ord : ArgOrder) :
    ∀ (n : Nat) (t : Expr) (z : Int), eval ord n t = .returned z → t.originalOnly = true := by
  intro n
  induction n with
  | zero => intro t z h; simp [eval] at h
  | succ k ih =>
    intro t z h
    cases t with
    | Value x => rfl
    | Plus a b =>
      rw [eval_Plus] at h
      obtain ⟨⟨x, hx⟩, ⟨y, hy⟩⟩ := both_bind_returned _ _ _ _ _ h
      simp [Expr.originalOnly, ih a x hx, ih b y hy]
    | Minus a b =>
      rw [eval_Minus] at h
      obtain ⟨⟨x, hx⟩, ⟨y, hy⟩⟩ := both_bind_returned _ _ _ _ _ h
      simp [Expr.originalOnly, ih a x hx, ih b y hy]
    | Mult a b =>
      rw [eval_Mult] at h
      obtain ⟨⟨x, hx⟩, ⟨y, hy⟩⟩ := both_bind_returned _ _ _ _ _ h
      simp [Expr.originalOnly, ih a x hx, ih b y hy]
    | Div a b =>
      rw [eval_Div] at h
      obtain ⟨⟨x, hx⟩, ⟨y, hy⟩⟩ := both_bind_returned _ _ _ _ _ h
      simp [Expr.originalOnly, ih a x hx, ih b y hy]
    | ExtendedExpr1 => rw [eval_not_original ord k .ExtendedExpr1 rfl] at h; simp at h
    | Mod a b => rw [eval_not_original ord k (.Mod a b) rfl] at h; simp at h
    | Pow a b => rw [eval_not_original ord k (.Pow a b) rfl] at h; simp at h
    | ExtendedExpr2 => rw [eval_not_original ord k .ExtendedExpr2 rfl] at h; simp at h
    | Min a b => rw [eval_not_original ord k (.Min a b) rfl] at h; simp at h
    | Max a b => rw [eval_not_original ord k (.Max a b) rfl] at h; simp at h

theorem eval_main_c (ord : ArgOrder) (k : Nat) : eval ord (k + 2) main.c = .returned 42 := by
  show eval ord (k + 2) (.Plus (.Value 17) (.Value 25)) = _
  rw [eval_Plus, eval_Value, eval_Value, both_returned]
  rfl

/-- C11, as stated, fails: `eval` returns no integer on the two mixed trees of `main`.  On
`d1 = Mod(Value 25, Plus(Value 17, Value 25))` and on `e1 = Minus(Plus(Value 17, Value 25), d1)`
it ends with `NoMatchingCase` for the kind `Mod`, under either evaluation order. -/
theorem C11_eval_mixed_fails :
    eval leftToRight 8 main.d1 = .thrown (.NoMatchingCase .Mod) ∧
    eval rightToLeft 8 main.d1 = .thrown (.NoMatchingCase .Mod) ∧
    eval leftToRight 8 main.e1 = .thrown (.NoMatchingCase .Mod) ∧
    eval rightToLeft 8 main.e1 = .thrown (.NoMatchingCase .Mod) ∧
    main.e1 = .Minus (.Plus (.Value 17) (.Value 25))
      (.Mod (.Value 25) (.Plus (.Value 17) (.Value 25))) := by
  decide

/-- C11, amended.  `eval` has cases for the original group only.  On the original-group tree
`Plus(Value 17, Value 25)` it returns 42; on `Mod(Value 25, Plus(Value 17, Value 25))` and on
`Minus(Plus(Value 17, Value 25), Mod(Value 25, Plus(Value 17, Value 25)))` it returns no
integer and fails with `NoMatchingCase` for the kind `Mod`, for every evaluation order and
every fuel from 3 on. -/
theorem C11_eval_mixed (ord : ArgOrder) (n : Nat) (hn : 3 ≤ n) :
    eval ord n main.c = .returned 42 ∧
    eval ord n main.d1 = .thrown (.NoMatchingCase .Mod) ∧
    eval ord n main.e1 = .thrown (.NoMatchingCase .Mod) := by
  obtain ⟨m, rfl⟩ : ∃ m, n = m + 3 := ⟨n - 3, by omega⟩
  have hd1 : ∀ k, eval ord (k + 1) main.d1 = .thrown (.NoMatchingCase .Mod) :=
    fun k => eval_not_original ord k main.d1 rfl
  refine ⟨eval_main_c ord (m + 1), hd1 (m + 2), ?_⟩
  show eval ord (m + 3) (.Minus main.c main.d1) = _
  rw [eval_Minus, eval_main_c ord m, hd1 (m + 1), (both_returned_thrown _ _ _).1]
  rfl

/-- C11 amended, at right-to-left evaluation and fuel 3. -/
theorem C11_eval_mixed_witness :
    3 ≤ 3 ∧ eval rightToLeft 3 main.c = .returned 42 ∧
      eval rightToLeft 3 main.d1 = .thrown (.NoMatchingCase .Mod) ∧
      eval rightToLeft 3 main.e1 = .thrown (.NoMatchingCase .Mod) :=
  ⟨by decide, C11_eval_mixed rightToLeft 3 (by decide)⟩


/-- C12. Decomposition fails when no case matches.  On a node `e` whose class is none of
`Value`, `Plus`, `Minus`, `Mult`, `Div` (a `Mod`, `Pow`, `Min` or `Max` node, or a bare group
root), `eval` throws `NoMatchingCase` carrying the class of `e` and returns no integer, with
any fuel from 1 on.  The same failure leaves `eval` when `e` is an operand of an
original-group node whose other operand evaluates to an integer, in either operand position
and under either evaluation order.  And a tree that contains a node outside the original
group is never evaluated to an integer, whatever the fuel. -/
theorem C12_no_matching_case (ord : ArgOrder) (e : Expr) (h : e.isOriginal = false)
    (k : Nat) :
    eval ord (k + 1) e = .thrown (.NoMatchingCase e.kind) ∧
    (∀ z, eval ord (k + 1) e ≠ .returned z) ∧
    (∀ (a : Expr) (x : Int), eval ord (k + 1) a = .returned x →
      eval ord (k + 2) (.Plus a e) = .thrown (.NoMatchingCase e.kind) ∧
      eval ord (k + 2) (.Plus e a) = .thrown (.NoMatchingCase e.kind) ∧
      eval ord (k + 2) (.Minus a e) = .thrown (.NoMatchingCase e.kind) ∧
      eval ord (k + 2) (.Minus e a) = .thrown (.NoMatchingCase e.kind) ∧
      eval ord (k + 2) (.Mult a e) = .thrown (.NoMatchingCase e.kind) ∧
      eval ord (k + 2) (.Mult e a) = .thrown (.NoMatchingCase e.kind) ∧
      eval ord (k + 2) (.Div a e) = .thrown (.NoMatchingCase e.kind) ∧
      eval ord (k + 2) (.Div e a) = .thrown (.NoMatchingCase e.kind)) ∧
    (∀ (t : Expr), t.originalOnly = false → ∀ (n : Nat) (z : Int),
      eval ord n t ≠ .returned z) := by
  have he := eval_not_original ord k e h
  refine ⟨he, ?_, ?_, ?_⟩
  · intro z; rw [he]; simp
  · intro a x ha
    refine ⟨?_, ?_, ?_, ?_, ?_, ?_, ?_, ?_⟩
    · rw [eval_Plus, ha, he, (both_returned_thrown _ _ _).1]; rfl
    · rw [eval_Plus, ha, he, (both_returned_thrown _ _ _).2]; rfl
    · rw [eval_Minus, ha, he, (both_returned_thrown _ _ _).1]; rfl
    · rw [eval_Minus, ha, he, (both_returned_thrown _ _ _).2]; rfl
    · rw [eval_Mult, ha, he, (both_returned_thrown _ _ _).1]; rfl
    · rw [eval_Mult, ha, he, (both_returned_thrown _ _ _).2]; rfl
    · rw [eval_Div, ha, he, (both_returned_thrown _ _ _).1]; rfl
    · rw [eval_Div, ha, he, (both_returned_thrown _ _ _).2]; rfl
  · intro t ht n z hz
    rw [eval_returned_originalOnly ord n t z hz] at ht
    exact Bool.noConfusion ht

/-- C12 at the `Min` node `d2` of `main`, alone and as second operand of `Minus(c, d2)`. -/
theorem C12_no_matching_case_witness :
    main.d2.isOriginal = false ∧
      eval leftToRight 2 main.d2 = .thrown (.NoMatchingCase .Min) ∧
      eval leftToRight 3 main.e2 = .thrown (.NoMatchingCase .Min) :=
  ⟨by decide, (C12_no_matching_case leftToRight main.d2 (by decide) 1).1,
    ((C12_no_matching_case leftToRight main.d2 (by decide) 1).2.2.1 main.c 42
      (by decide)).2.2.1⟩

/-- C13, as stated, fails: `eval(Div(Value 1, Value 0))` raises no error value at all.  The
`int` division by zero is executed unchecked, which is undefined behaviour, under either
evaluation order. -/
theorem C13_division_by_zero_unchecked :
    eval leftToRight 2 (.Div (.Value 1) (.Value 0)) = .undefined ∧
    eval rightToLeft 2 (.Div (.Value 1) (.Value 0)) = .undefined ∧
    eval leftToRight 1 (.Value 1) = .returned 1 ∧
    eval leftToRight 1 (.Value 0) = .returned 0 := by
  decide

/-- C13, amended.  For every tree `Div(a, b)` in which `eval(a)` returns an integer and
`eval(b)` returns 0, `eval` executes `eval(a) / eval(b)` without checking the divisor: the
outcome is undefined behaviour.  It is neither a returned integer nor a thrown failure, so in
particular not `NoMatchingCase`, not one of the failures of dispatch, and not an
`ArithmeticError`, which the program does not have. -/
theorem C13_division_by_zero (ord : ArgOrder) (a b : Expr) (n : Nat) (x : Int)
    (ha : eval ord n a = .returned x) (hb : eval ord n b = .returned 0) :
    eval ord (n + 1) (.Div a b) = .undefined ∧
    (∀ z, eval ord (n + 1) (.Div a b) ≠ .returned z) ∧
    (∀ e, eval ord (n + 1) (.Div a b) ≠ .thrown e) := by
  have h : eval ord (n + 1) (.Div a b) = .undefined := by
    rw [eval_Div, ha, hb, both_returned]
    simp [Outcome.bind, int_div]
  refine ⟨h, ?_, ?_⟩
  · intro z; rw [h]; simp
  · intro e; rw [h]; simp

/-- C13 amended, at `Div(Plus(Value 17, Value 25), Minus(Value 2, Value 2))`. -/
theorem C13_division_by_zero_witness :
    eval leftToRight 2 main.c = .returned 42 ∧
      eval leftToRight 2 (.Minus (.Value 2) (.Value 2)) = .returned 0 ∧
      eval leftToRight 3 (.Div main.c (.Minus (.Value 2) (.Value 2))) = .undefined :=
  ⟨by decide, by decide,
    (C13_division_by_zero leftToRight main.c (.Minus (.Value 2) (.Value 2)) 2 42
      (by decide) (by decide)).1⟩

/-- C14, as stated, fails: the `Mod` node `d1` and the `Min` node `d2` of `main`, nodes of
different classes, dispatched through `to_str` fail with one and the same value, the `int`
5, which carries no information on the node. -/
theorem C14_failure_without_kind :
    to_str leftToRight 3 main.d1 = .thrown (.int 5) ∧
    to_str leftToRight 3 main.d2 = .thrown (.int 5) ∧
    to_str leftToRight 3 main.d1 = to_str leftToRight 3 main.d2 ∧
    main.d1.kind = .Mod ∧ main.d2.kind = .Min := by
  decide

/-- C14, amended.  The failure raised by dispatch does not identify the node's runtime kind.
Any two nodes outside the original group, of whatever classes, dispatched through the base
protocol (`to_str`) fail with one and the same value, the `int` 5.  So the kind of the
unhandled node cannot be recovered from the failure value: no function of the failure value
gives back the class of every such node. -/
theorem C14_failure_carries_no_kind (ord : ArgOrder) (e1 e2 : Expr)
    (h1 : e1.isOriginal = false) (h2 : e2.isOriginal = false) (k : Nat) :
    to_str ord (k + 3) e1 = .thrown (.int 5) ∧
    to_str ord (k + 3) e2 = .thrown (.int 5) ∧
    to_str ord (k + 3) e1 = to_str ord (k + 3) e2 ∧
    ¬ ∃ recover : Exception → Class, ∀ (e : Expr) (x : Exception),
        e.isOriginal = false → to_str ord (k + 3) e = .thrown x → recover x = e.kind := by
  have t1 := to_str_unknown ord k e1 h1
  have t2 := to_str_unknown ord k e2 h2
  refine ⟨t1, t2, t1.trans t2.symm, ?_⟩
  rintro ⟨recover, hr⟩
  have a := hr main.d1 (.int 5) rfl (to_str_unknown ord k main.d1 rfl)
  have b := hr main.d2 (.int 5) rfl (to_str_unknown ord k main.d2 rfl)
  rw [a] at b
  exact Class.noConfusion b

/-- C14 amended, at the `Mod` node `d1` and the `Min` node `d2` of `main`. -/
theorem C14_failure_carries_no_kind_witness :
    main.d1.isOriginal = false ∧ main.d2.isOriginal = false ∧
      to_str rightToLeft 3 main.d1 = .thrown (.int 5) ∧
      to_str rightToLeft 3 main.d2 = .thrown (.int 5) ∧
      to_str rightToLeft 3 main.d1 = to_str rightToLeft 3 main.d2 :=
  ⟨by decide, by decide,
    (C14_failure_carries_no_kind rightToLeft main.d1 main.d2 (by decide) (by decide) 0).1,
    (C14_failure_carries_no_kind rightToLeft main.d1 main.d2 (by decide) (by decide) 0).2.1,
    (C14_failure_carries_no_kind rightToLeft main.d1 main.d2 (by decide) (by decide)
      0).2.2.1⟩

/-! ## First match -/

theorem matches_eq_fire {α : Type} (c : Case α) (e : Expr) :
    c.matches e = (c.fire e).isSome := by
  cases c <;> cases e <;> rfl

theorem Match_skip {α : Type} (e : Expr) (pre cases : List (Case (Outcome α)))
    (hpre : ∀ c ∈ pre, c.matches e = false) :
    Match e (pre ++ cases) = Match e cases := by
  induction pre with
  | nil => rfl
  | cons c cs ih =>
    have hc : c.fire e = none := by
      have := hpre c (List.mem_cons_self _ _)
      rw [matches_eq_fire] at this
      cases hf : c.fire e <;> simp [hf] at this ⊢
    have ih' := ih (fun c' hc' => hpre c' (List.mem_cons_of_mem _ hc'))
    simp only [List.cons_append, Match, hc]
    exact ih'

theorem eval_eq_Match (ord : ArgOrder) (k : Nat) (e : Expr) :
    eval ord (k + 1) e = Match e (eval_cases ord (eval ord k)) := by
  simp [eval, eval_cases]

/-- C15. Decomposition is first-match and fires at most one case.  For every node `e` and
every list of cases `pre ++ c :: post` in which no case of `pre` matches `e` and `c` is a
case that fires on `e` with the outcome `r` of its body, `Match` ends as that body does, and
so whatever the cases `post` written after it are; a case fires only when it matches.  When
no case matches, no body runs and `Match` fails with `NoMatchingCase`.  A catch-all case
written first decides for every node, also before a case naming the node's kind.  The five
cases of `eval` are pairwise disjoint: on a node of the original group exactly one of them
matches, on any other node none. -/
theorem C15_first_match {α : Type} (e : Expr) (pre post : List (Case (Outcome α)))
    (c : Case (Outcome α)) (r : Outcome α)
    (hpre : ∀ c' ∈ pre, c'.matches e = false) (hc : c.fire e = some r) :
    Match e (pre ++ c :: post) = r ∧ c.matches e = true ∧
    (∀ post' : List (Case (Outcome α)), Match e (pre ++ c :: post') = r) ∧
    (∀ cases : List (Case (Outcome α)), (∀ c' ∈ cases, c'.matches e = false) →
      Match e cases = .thrown (.NoMatchingCase e.kind)) ∧
    (∀ (body : Outcome α) (cases : List (Case (Outcome α))),
      Match e (.Otherwise body :: cases) = body) ∧
    (∀ (ord : ArgOrder) (k : Nat) (t : Expr),
      eval ord (k + 1) t = Match t (eval_cases ord (eval ord k)) ∧
      ((eval_cases ord (eval ord k)).filter fun c' => c'.matches t).length
        = if t.isOriginal then 1 else 0) := by
  have first : ∀ post' : List (Case (Outcome α)), Match e (pre ++ c :: post') = r := by
    intro post'
    rw [Match_skip e pre _ hpre]
    simp [Match, hc]
  refine ⟨first post, ?_, first, ?_, ?_, ?_⟩
  · rw [matches_eq_fire, hc]; rfl
  · intro cases hnone
    have := Match_skip e cases [] hnone
    simpa [Match] using this
  · intro body cases
    simp [Match, Case.fire]
  · intro ord k t
    refine ⟨eval_eq_Match ord k t, ?_⟩
    cases t <;> simp [eval_cases, Case.matches, Case.named, Expr.kind, Expr.isOriginal]

/-- C15 at the `Minus` node `e1` of `main`: after a case for `Value`, which does not match,
a catch-all case written before the case for `Minus` decides. -/
theorem C15_first_match_witness :
    (∀ c' ∈ [Case.Value fun _ => (.returned 2 : Outcome Int)],
        c'.matches main.e1 = false) ∧
      (Case.Otherwise (.returned 0) : Case (Outcome Int)).fire main.e1
        = some (.returned 0) ∧
      Match main.e1 ([.Value fun _ => .returned 2] ++
          Case.Otherwise (.returned 0) :: [.Minus fun _ _ => .returned 1])
        = .returned 0 :=
  ⟨by decide, rfl,
    (C15_first_match main.e1 [.Value fun _ => .returned 2] [.Minus fun _ _ => .returned 1]
      (.Otherwise (.returned 0)) (.returned 0) (by decide) rfl).1⟩

/-! ## The group roots and the default failures -/

/-- The three calls of the dispatch chain of a bare `ExtendedExpr1` node in the group-1
protocol call one another in a circle; none of them ends, whatever the fuel. -/
theorem root1_chain_out_of_fuel (ord : ArgOrder) (result : String) :
    ∀ n : Nat,
      visit_Expr ord n .ExtendedExpr1 ⟨.Extended1ToStrVisitor, result⟩ = .out_of_fuel ∧
      ExtendedExpr1.accept ord n .root ⟨.Extended1ToStrVisitor, result⟩ = .out_of_fuel ∧
      visit_ExtendedExpr1 ord n .root ⟨.Extended1ToStrVisitor, result⟩ = .out_of_fuel := by
  intro n
  induction n with
  | zero => simp [visit_Expr, ExtendedExpr1.accept, visit_ExtendedExpr1]
  | succ k ih =>
    refine ⟨?_, ?_, ?_⟩
    · simp [visit_Expr, dynamic_cast_ExtendedExpr1, ih.2.1]
    · simp [ExtendedExpr1.accept, ih.2.2]
    · simp [visit_ExtendedExpr1, ExtendedExpr1.static_cast_Expr, ih.1]

/-- The same circle for a bare `ExtendedExpr2` node in the group-2 protocol. -/
theorem root2_chain_out_of_fuel (ord : ArgOrder) (result : String) :
    ∀ n : Nat,
      visit_Expr ord n .ExtendedExpr2 ⟨.Extended2ToStrVisitor, result⟩ = .out_of_fuel ∧
      ExtendedExpr2.accept ord n .root ⟨.Extended2ToStrVisitor, result⟩ = .out_of_fuel ∧
      visit_ExtendedExpr2 ord n .root ⟨.Extended2ToStrVisitor, result⟩ = .out_of_fuel := by
  intro n
  induction n with
  | zero => simp [visit_Expr, ExtendedExpr2.accept, visit_ExtendedExpr2]
  | succ k ih =>
    refine ⟨?_, ?_, ?_⟩
    · simp [visit_Expr, dynamic_cast_ExtendedExpr2, ih.2.1]
    · simp [ExtendedExpr2.accept, ih.2.2]
    · simp [visit_ExtendedExpr2, ExtendedExpr2.static_cast_Expr, ih.1]

/-- C17, the code at the failing input.  `to_str_ex1` on a bare `ExtendedExpr1` node does not
end: for every evaluation order and every fuel the run exhausts the fuel, it neither returns
nor throws, and so does not throw the group default 6.  The chain
`accept(ExtendedExpr1Visitor&)` -> `visit(const ExtendedExpr1&)` -> `visit(const Expr&)` ->
narrowing check -> `accept(ExtendedExpr1Visitor&)` is a circle: each call is the next one
with one unit of fuel less.  The same holds for a bare `ExtendedExpr2` node in `to_str_ex2`.
Through the base protocol the same nodes end with the failure 5. -/
theorem C17_group_root_cycles (ord : ArgOrder) (n : Nat) :
    to_str_ex1 ord n .ExtendedExpr1 = .out_of_fuel ∧
    to_str_ex2 ord n .ExtendedExpr2 = .out_of_fuel ∧
    (∀ x, to_str_ex1 ord n .ExtendedExpr1 ≠ .thrown x) ∧
    (∀ x, to_str_ex2 ord n .ExtendedExpr2 ≠ .thrown x) ∧
    (∀ v : Visitor,
      ExtendedExpr1.accept ord (n + 3) .root v = visit_ExtendedExpr1 ord (n + 2) .root v ∧
      visit_ExtendedExpr1 ord (n + 2) .root ⟨.Extended1ToStrVisitor, v.result⟩
        = visit_Expr ord (n + 1) .ExtendedExpr1 ⟨.Extended1ToStrVisitor, v.result⟩ ∧
      visit_Expr ord (n + 1) .ExtendedExpr1 ⟨.Extended1ToStrVisitor, v.result⟩
        = ExtendedExpr1.accept ord n .root ⟨.Extended1ToStrVisitor, v.result⟩) ∧
    to_str ord (n + 3) .ExtendedExpr1 = .thrown (.int 5) ∧
    to_str ord (n + 3) .ExtendedExpr2 = .thrown (.int 5) := by
  have h1 : to_str_ex1 ord n .ExtendedExpr1 = .out_of_fuel := by
    cases n with
    | zero => simp [to_str_ex1]
    | succ k =>
      cases k with
      | zero => simp [to_str_ex1, Expr.accept, Outcome.map]
      | succ m =>
        simp [to_str_ex1, Expr.accept, (root1_chain_out_of_fuel ord "" m).1, Outcome.map]
  have h2 : to_str_ex2 ord n .ExtendedExpr2 = .out_of_fuel := by
    cases n with
    | zero => simp [to_str_ex2]
    | succ k =>
      cases k with
      | zero => simp [to_str_ex2, Expr.accept, Outcome.map]
      | succ m =>
        simp [to_str_ex2, Expr.accept, (root2_chain_out_of_fuel ord "" m).1, Outcome.map]
  refine ⟨h1, h2, ?_, ?_, ?_, to_str_unknown ord n .ExtendedExpr1 rfl,
    to_str_unknown ord n .ExtendedExpr2 rfl⟩
  · intro x; rw [h1]; simp
  · intro x; rw [h2]; simp
  · intro v
    refine ⟨?_, ?_, ?_⟩
    · simp [ExtendedExpr1.accept]
    · simp [visit_ExtendedExpr1, ExtendedExpr1.static_cast_Expr]
    · simp [visit_Expr, dynamic_cast_ExtendedExpr1]


theorem throwsOnly_map {α β : Type} (x : Exception) (f : α → β) (o : Outcome α)
    (h : o.throwsOnly x) : (o.map f).throwsOnly x := by
  intro y hy
  cases o <;> simp [Outcome.map] at hy
  exact h y (by rw [hy])

theorem throwsOnly_both {α β : Type} (x : Exception) (s : Bool) (a : Outcome α)
    (b : Outcome β) (ha : a.throwsOnly x) (hb : b.throwsOnly x) :
    (Outcome.both s a b).throwsOnly x := by
  intro y hy
  cases s <;> cases a <;> cases b <;> simp [Outcome.both, Outcome.bind] at hy <;>
    first
      | exact ha y (by rw [hy])
      | exact hb y (by rw [hy])

/-- Whatever the fuel, every function of the formatters run on a visitor leaves by no other
exception than the rejection of the visitor's class. -/
theorem throwsOnly_rejection (ord : ArgOrder) :
    ∀ n : Nat,
      (∀ (V : VisitorClass) (e : Expr), (V.formatter ord n e).throwsOnly V.rejection) ∧
      (∀ (v : Visitor) (e : Expr), (evaluate ord n v e).throwsOnly v.cls.rejection) ∧
      (∀ (v : Visitor) (e : Expr), (Expr.accept ord n e v).throwsOnly v.cls.rejection) ∧
      (∀ (v : Visitor) (e : Expr), (visit_Expr ord n e v).throwsOnly v.cls.rejection) ∧
      (∀ (v : Visitor) (x : Int), (visit_Value n x v).throwsOnly v.cls.rejection) ∧
      (∀ (v : Visitor) (a b : Expr), (visit_Plus ord n a b v).throwsOnly v.cls.rejection) ∧
      (∀ (v : Visitor) (a b : Expr), (visit_Minus ord n a b v).throwsOnly v.cls.rejection) ∧
      (∀ (v : Visitor) (a b : Expr), (visit_Mult ord n a b v).throwsOnly v.cls.rejection) ∧
      (∀ (v : Visitor) (a b : Expr), (visit_Div ord n a b v).throwsOnly v.cls.rejection) ∧
      (∀ (v : Visitor) (a b : Expr), (visit_Mod ord n a b v).throwsOnly v.cls.rejection) ∧
      (∀ (v : Visitor) (a b : Expr), (visit_Pow ord n a b v).throwsOnly v.cls.rejection) ∧
      (∀ (v : Visitor) (a b : Expr), (visit_Min ord n a b v).throwsOnly v.cls.rejection) ∧
      (∀ (v : Visitor) (a b : Expr), (visit_Max ord n a b v).throwsOnly v.cls.rejection) ∧
      (∀ (v : Visitor) (x : ExtendedExpr1),
        (ExtendedExpr1.accept ord n x v).throwsOnly v.cls.rejection) ∧
      (∀ (v : Visitor) (x : ExtendedExpr1),
        (visit_ExtendedExpr1 ord n x v).throwsOnly v.cls.rejection) ∧
      (∀ (v : Visitor) (x : ExtendedExpr2),
        (ExtendedExpr2.accept ord n x v).throwsOnly v.cls.rejection) ∧
      (∀ (v : Visitor) (x : ExtendedExpr2),
        (visit_ExtendedExpr2 ord n x v).throwsOnly v.cls.rejection) := by
  intro n
  induction n with
  | zero =>
    refine ⟨?_, ?_, ?_, ?_, ?_, ?_, ?_, ?_, ?_, ?_, ?_, ?_, ?_, ?_, ?_, ?_, ?_⟩
    · intro V e y hy
      cases V <;> simp [VisitorClass.formatter, to_str, to_str_ex1, to_str_ex2] at hy
    all_goals
      intros
      intro y hy
      simp [evaluate, Expr.accept, visit_Expr, visit_Value, visit_Plus, visit_Minus,
        visit_Mult, visit_Div, visit_Mod, visit_Pow, visit_Min, visit_Max,
        ExtendedExpr1.accept, visit_ExtendedExpr1, ExtendedExpr2.accept,
        visit_ExtendedExpr2] at hy
  | succ n ih =>
    obtain ⟨h1, h2, h3, h4, h5, h6, h7, h8, h9, h10, h11, h12, h13, h14, h15, h16, h17⟩ := ih
    refine ⟨?_, ?_, ?_, ?_, ?_, ?_, ?_, ?_, ?_, ?_, ?_, ?_, ?_, ?_, ?_, ?_, ?_⟩
    · intro V e
      rw [formatter_succ]
      exact throwsOnly_map _ _ _ (h3 ⟨V, ""⟩ e)
    · intro v e
      rw [evaluate_succ]
      exact h1 v.cls e
    · intro v e
      cases e <;> simp only [Expr.accept]
      · exact h5 v _
      · exact h6 v _ _
      · exact h7 v _ _
      · exact h8 v _ _
      · exact h9 v _ _
      all_goals exact h4 v _
    · intro v e
      obtain ⟨c, r⟩ := v
      cases c
      · intro y hy
        simp [visit_Expr, ExprVisitor.visit_Expr] at hy
        rw [← hy]; rfl
      · simp only [visit_Expr]
        cases hd : dynamic_cast_ExtendedExpr1 e with
        | none =>
          intro y hy
          simp at hy
          rw [← hy]; rfl
        | some x => exact h14 _ x
      · simp only [visit_Expr]
        cases hd : dynamic_cast_ExtendedExpr2 e with
        | none =>
          intro y hy
          simp at hy
          rw [← hy]; rfl
        | some x => exact h16 _ x
    · intro v x y hy
      simp [visit_Value] at hy
    · intro v a b
      simp only [visit_Plus]
      exact throwsOnly_map _ _ _ (throwsOnly_both _ _ _ _ (h2 v a) (h2 v b))
    · intro v a b
      simp only [visit_Minus]
      exact throwsOnly_map _ _ _ (throwsOnly_both _ _ _ _ (h2 v a) (h2 v b))
    · intro v a b
      simp only [visit_Mult]
      exact throwsOnly_map _ _ _ (throwsOnly_both _ _ _ _ (h2 v a) (h2 v b))
    · intro v a b
      simp only [visit_Div]
      exact throwsOnly_map _ _ _ (throwsOnly_both _ _ _ _ (h2 v a) (h2 v b))
    · intro v a b
      simp only [visit_Mod]
      exact throwsOnly_map _ _ _ (throwsOnly_both _ _ _ _ (h2 v a) (h2 v b))
    · intro v a b
      simp only [visit_Pow]
      exact throwsOnly_map _ _ _ (throwsOnly_both _ _ _ _ (h2 v a) (h2 v b))
    · intro v a b
      simp only [visit_Min]
      exact throwsOnly_map _ _ _ (throwsOnly_both _ _ _ _ (h2 v a) (h2 v b))
    · intro v a b
      simp only [visit_Max]
      exact throwsOnly_map _ _ _ (throwsOnly_both _ _ _ _ (h2 v a) (h2 v b))
    · intro v x
      cases x <;> simp only [ExtendedExpr1.accept]
      · exact h15 v _
      · exact h10 v _ _
      · exact h11 v _ _
    · intro v x
      simp only [visit_ExtendedExpr1]
      exact h4 v _
    · intro v x
      cases x <;> simp only [ExtendedExpr2.accept]
      · exact h17 v _
      · exact h12 v _ _
      · exact h13 v _ _
    · intro v x
      simp only [visit_ExtendedExpr2]
      exact h4 v _


/-- C18. In the extended formatters the inherited default failures are unreachable.  For
every tree (in particular every tree over the nine catalogue kinds), every evaluation order
and every fuel: if `to_str_ex1` throws, it throws `std::bad_cast`, so neither the base
default 5 nor the group-1 default 6; if `to_str_ex2` throws, it throws `std::bad_cast`, so
neither 5 nor the group-2 default 7; if `to_str` throws, it throws 5.  Each of these
failures does occur: `to_str_ex1` throws `std::bad_cast` on the `Min` node `d2` of `main`,
`to_str_ex2` on the `Mod` node `d1`, and `to_str` throws 5 on `d1`. -/
theorem C18_default_failures_unreachable (ord : ArgOrder) (t : Expr) (n : Nat) :
    (∀ x, to_str_ex1 ord n t = .thrown x → x = .bad_cast) ∧
    to_str_ex1 ord n t ≠ .thrown (.int 5) ∧ to_str_ex1 ord n t ≠ .thrown (.int 6) ∧
    (∀ x, to_str_ex2 ord n t = .thrown x → x = .bad_cast) ∧
    to_str_ex2 ord n t ≠ .thrown (.int 5) ∧ to_str_ex2 ord n t ≠ .thrown (.int 7) ∧
    (∀ x, to_str ord n t = .thrown x → x = .int 5) ∧
    to_str_ex1 ord 3 main.d2 = .thrown .bad_cast ∧
    to_str_ex2 ord 3 main.d1 = .thrown .bad_cast ∧
    to_str ord 3 main.d1 = .thrown (.int 5) := by
  have h := (throwsOnly_rejection ord n).1
  have h0 : ∀ x, to_str ord n t = .thrown x → x = .int 5 := h .ToStrVisitor t
  have h1 : ∀ x, to_str_ex1 ord n t = .thrown x → x = .bad_cast := h .Extended1ToStrVisitor t
  have h2 : ∀ x, to_str_ex2 ord n t = .thrown x → x = .bad_cast := h .Extended2ToStrVisitor t
  refine ⟨h1, ?_, ?_, h2, ?_, ?_, h0, to_str_ex1_unknown ord 0 main.d2 rfl rfl,
    to_str_ex2_unknown ord 0 main.d1 rfl rfl, to_str_unknown ord 0 main.d1 rfl⟩
  · intro hx; exact Exception.noConfusion (h1 _ hx)
  · intro hx; exact Exception.noConfusion (h1 _ hx)
  · intro hx; exact Exception.noConfusion (h2 _ hx)
  · intro hx; exact Exception.noConfusion (h2 _ hx)


/-! ## Construction and null operands -/

theorem object_dynamic_cast1 (t : Expr) :
    Heap.dynamic_cast_ExtendedExpr1 t.object
      = (dynamic_cast_ExtendedExpr1 t).map ExtendedExpr1.object := by
  cases t <;> rfl

theorem object_dynamic_cast2 (t : Expr) :
    Heap.dynamic_cast_ExtendedExpr2 t.object
      = (dynamic_cast_ExtendedExpr2 t).map ExtendedExpr2.object := by
  cases t <;> rfl

theorem object_static_cast1 (x : ExtendedExpr1) :
    x.object.static_cast_Expr = x.static_cast_Expr.object := by
  cases x <;> rfl

theorem object_static_cast2 (x : ExtendedExpr2) :
    x.object.static_cast_Expr = x.static_cast_Expr.object := by
  cases x <;> rfl

/-- On the node object of a tree, every function of the formatters on pointers ends as the
function of the same name on the tree, with the same fuel. -/
theorem heap_agrees (ord : Heap.ArgOrder) :
    ∀ n : Nat,
      (∀ t : Expr, Heap.to_str ord n (some t.object) = to_str (treeOrder ord) n t) ∧
      (∀ t : Expr, Heap.to_str_ex1 ord n (some t.object) = to_str_ex1 (treeOrder ord) n t) ∧
      (∀ t : Expr, Heap.to_str_ex2 ord n (some t.object) = to_str_ex2 (treeOrder ord) n t) ∧
      (∀ (v : Visitor) (t : Expr),
        Heap.evaluate ord n v (some t.object) = evaluate (treeOrder ord) n v t) ∧
      (∀ (v : Visitor) (t : Expr),
        Heap.Expr.accept ord n t.object v = Expr.accept (treeOrder ord) n t v) ∧
      (∀ (v : Visitor) (t : Expr),
        Heap.visit_Expr ord n t.object v = visit_Expr (treeOrder ord) n t v) ∧
      (∀ (v : Visitor) (x : Int), Heap.visit_Value n x v = visit_Value n x v) ∧
      (∀ (v : Visitor) (a b : Expr),
        Heap.visit_Plus ord n (some a.object) (some b.object) v
          = visit_Plus (treeOrder ord) n a b v) ∧
      (∀ (v : Visitor) (a b : Expr),
        Heap.visit_Minus ord n (some a.object) (some b.object) v
          = visit_Minus (treeOrder ord) n a b v) ∧
      (∀ (v : Visitor) (a b : Expr),
        Heap.visit_Mult ord n (some a.object) (some b.object) v
          = visit_Mult (treeOrder ord) n a b v) ∧
      (∀ (v : Visitor) (a b : Expr),
        Heap.visit_Div ord n (some a.object) (some b.object) v
          = visit_Div (treeOrder ord) n a b v) ∧
      (∀ (v : Visitor) (a b : Expr),
        Heap.visit_Mod ord n (some a.object) (some b.object) v
          = visit_Mod (treeOrder ord) n a b v) ∧
      (∀ (v : Visitor) (a b : Expr),
        Heap.visit_Pow ord n (some a.object) (some b.object) v
          = visit_Pow (treeOrder ord) n a b v) ∧
      (∀ (v : Visitor) (a b : Expr),
        Heap.visit_Min ord n (some a.object) (some b.object) v
          = visit_Min (treeOrder ord) n a b v) ∧
      (∀ (v : Visitor) (a b : Expr),
        Heap.visit_Max ord n (some a.object) (some b.object) v
          = visit_Max (treeOrder ord) n a b v) ∧
      (∀ (v : Visitor) (x : ExtendedExpr1),
        Heap.ExtendedExpr1.accept ord n x.object v
          = ExtendedExpr1.accept (treeOrder ord) n x v) ∧
      (∀ (v : Visitor) (x : ExtendedExpr1),
        Heap.visit_ExtendedExpr1 ord n x.object v
          = visit_ExtendedExpr1 (treeOrder ord) n x v) ∧
      (∀ (v : Visitor) (x : ExtendedExpr2),
        Heap.ExtendedExpr2.accept ord n x.object v
          = ExtendedExpr2.accept (treeOrder ord) n x v) ∧
      (∀ (v : Visitor) (x : ExtendedExpr2),
        Heap.visit_ExtendedExpr2 ord n x.object v
          = visit_ExtendedExpr2 (treeOrder ord) n x v) := by
  intro n
  induction n with
  | zero =>
    refine ⟨?_, ?_, ?_, ?_, ?_, ?_, ?_, ?_, ?_, ?_, ?_, ?_, ?_, ?_, ?_, ?_, ?_, ?_, ?_⟩
    all_goals
      intros
      simp [Heap.to_str, to_str, Heap.to_str_ex1, to_str_ex1, Heap.to_str_ex2, to_str_ex2,
        Heap.evaluate, evaluate, Heap.Expr.accept, Expr.accept, Heap.visit_Expr, visit_Expr,
        Heap.visit_Value, visit_Value, Heap.visit_Plus, visit_Plus, Heap.visit_Minus,
        visit_Minus, Heap.visit_Mult, visit_Mult, Heap.visit_Div, visit_Div,
        Heap.visit_Mod, visit_Mod, Heap.visit_Pow, visit_Pow, Heap.visit_Min, visit_Min,
        Heap.visit_Max, visit_Max, Heap.ExtendedExpr1.accept, ExtendedExpr1.accept,
        Heap.visit_ExtendedExpr1, visit_ExtendedExpr1, Heap.ExtendedExpr2.accept,
        ExtendedExpr2.accept, Heap.visit_ExtendedExpr2, visit_ExtendedExpr2]
  | succ n ih =>
    obtain ⟨h1, h2, h3, h4, h5, h6, h7, h8, h9, h10, h11, h12, h13, h14, h15, h16, h17, h18, h19⟩ := ih
    refine ⟨?_, ?_, ?_, ?_, ?_, ?_, ?_, ?_, ?_, ?_, ?_, ?_, ?_, ?_, ?_, ?_, ?_, ?_, ?_⟩
    · intro t
      simp only [Heap.to_str, to_str, h5]
    · intro t
      simp only [Heap.to_str_ex1, to_str_ex1, h5]
    · intro t
      simp only [Heap.to_str_ex2, to_str_ex2, h5]
    · intro v t
      obtain ⟨c, r⟩ := v
      cases c <;> simp only [Heap.evaluate, evaluate, h1, h2, h3]
    · intro v t
      cases t
      · exact h7 v _
      · exact h8 v _ _
      · exact h9 v _ _
      · exact h10 v _ _
      · exact h11 v _ _
      · exact h6 v .ExtendedExpr1
      · exact h6 v (.Mod _ _)
      · exact h6 v (.Pow _ _)
      · exact h6 v .ExtendedExpr2
      · exact h6 v (.Min _ _)
      · exact h6 v (.Max _ _)
    · intro v t
      obtain ⟨c, r⟩ := v
      cases c
      · simp only [Heap.visit_Expr, visit_Expr]
      · simp only [Heap.visit_Expr, visit_Expr, object_dynamic_cast1]
        cases dynamic_cast_ExtendedExpr1 t with
        | none => rfl
        | some x => exact h16 _ x
      · simp only [Heap.visit_Expr, visit_Expr, object_dynamic_cast2]
        cases dynamic_cast_ExtendedExpr2 t with
        | none => rfl
        | some x => exact h18 _ x
    · intro v x
      simp only [Heap.visit_Value, visit_Value]
    · intro v a b
      simp only [Heap.visit_Plus, visit_Plus, treeOrder, h4 v a, h4 v b]
    · intro v a b
      simp only [Heap.visit_Minus, visit_Minus, treeOrder, h4 v a, h4 v b]
    · intro v a b
      simp only [Heap.visit_Mult, visit_Mult, treeOrder, h4 v a, h4 v b]
    · intro v a b
      simp only [Heap.visit_Div, visit_Div, treeOrder, h4 v a, h4 v b]
    · intro v a b
      simp only [Heap.visit_Mod, visit_Mod, treeOrder, h4 v a, h4 v b]
    · intro v a b
      simp only [Heap.visit_Pow, visit_Pow, treeOrder, h4 v a, h4 v b]
    · intro v a b
      simp only [Heap.visit_Min, visit_Min, treeOrder, h4 v a, h4 v b]
    · intro v a b
      simp only [Heap.visit_Max, visit_Max, treeOrder, h4 v a, h4 v b]
    · intro v x
      cases x
      · exact h17 v .root
      · exact h12 v _ _
      · exact h13 v _ _
    · intro v x
      simp only [Heap.visit_ExtendedExpr1, visit_ExtendedExpr1, object_static_cast1, h6]
    · intro v x
      cases x
      · exact h19 v .root
      · exact h14 v _ _
      · exact h15 v _ _
    · intro v x
      simp only [Heap.visit_ExtendedExpr2, visit_ExtendedExpr2, object_static_cast2, h6]


/-- C16, as stated, fails: `new Plus(nullptr, nullptr)` does not fail; it yields a `Plus`
node whose two operands are absent, and `to_str` on that node meets the absent operand: it
calls through the null pointer, which is undefined behaviour, under either evaluation
order. -/
theorem C16_null_operand_accepted :
    Heap.new_Plus none none = .returned (.Plus none none) ∧
    Heap.to_str Heap.leftToRight 5 (some (.Plus none none)) = .undefined ∧
    Heap.to_str Heap.rightToLeft 5 (some (.Plus none none)) = .undefined :=
  ⟨rfl, by decide, by decide⟩

/-- C16, amended.  Construction of a composite node never fails: for all operand pointers
`e1`, `e2`, null or not, each of the eight constructors returns the node that holds exactly
these two pointers, so a node constructed with a null operand has an absent operand.  A
formatter that has a case for a node whose two operands are absent calls through the null
pointer (undefined behaviour), for every evaluation order.  On the node object of a tree,
where every composite node was constructed from two present operands, `to_str`,
`to_str_ex1` and `to_str_ex2` on pointers end as on the tree, and so meet no absent
operand. -/
theorem C16_construction_unchecked (ord : Heap.ArgOrder) (e1 e2 : Option Heap.Expr)
    (k : Nat) :
    Heap.new_Plus e1 e2 = .returned (.Plus e1 e2) ∧
    Heap.new_Minus e1 e2 = .returned (.Minus e1 e2) ∧
    Heap.new_Mult e1 e2 = .returned (.Mult e1 e2) ∧
    Heap.new_Div e1 e2 = .returned (.Div e1 e2) ∧
    Heap.new_Mod e1 e2 = .returned (.Mod e1 e2) ∧
    Heap.new_Pow e1 e2 = .returned (.Pow e1 e2) ∧
    Heap.new_Min e1 e2 = .returned (.Min e1 e2) ∧
    Heap.new_Max e1 e2 = .returned (.Max e1 e2) ∧
    Heap.to_str ord (k + 5) (some (.Plus none none)) = .undefined ∧
    Heap.to_str_ex1 ord (k + 5) (some (.Plus none none)) = .undefined ∧
    Heap.to_str_ex2 ord (k + 5) (some (.Plus none none)) = .undefined ∧
    Heap.to_str ord (k + 5) (some (.Minus none none)) = .undefined ∧
    Heap.to_str_ex1 ord (k + 5) (some (.Minus none none)) = .undefined ∧
    Heap.to_str_ex2 ord (k + 5) (some (.Minus none none)) = .undefined ∧
    Heap.to_str ord (k + 5) (some (.Mult none none)) = .undefined ∧
    Heap.to_str_ex1 ord (k + 5) (some (.Mult none none)) = .undefined ∧
    Heap.to_str_ex2 ord (k + 5) (some (.Mult none none)) = .undefined ∧
    Heap.to_str ord (k + 5) (some (.Div none none)) = .undefined ∧
    Heap.to_str_ex1 ord (k + 5) (some (.Div none none)) = .undefined ∧
    Heap.to_str_ex2 ord (k + 5) (some (.Div none none)) = .undefined ∧
    Heap.to_str_ex1 ord (k + 7) (some (.Mod none none)) = .undefined ∧
    Heap.to_str_ex1 ord (k + 7) (some (.Pow none none)) = .undefined ∧
    Heap.to_str_ex2 ord (k + 7) (some (.Min none none)) = .undefined ∧
    Heap.to_str_ex2 ord (k + 7) (some (.Max none none)) = .undefined ∧
    (∀ (t : Expr) (n : Nat),
      Heap.to_str ord n (some t.object) = to_str (treeOrder ord) n t ∧
      Heap.to_str_ex1 ord n (some t.object) = to_str_ex1 (treeOrder ord) n t ∧
      Heap.to_str_ex2 ord n (some t.object) = to_str_ex2 (treeOrder ord) n t) := by
  refine ⟨rfl, rfl, rfl, rfl, rfl, rfl, rfl, rfl, ?_, ?_, ?_, ?_, ?_, ?_, ?_, ?_, ?_, ?_, ?_, ?_, ?_, ?_, ?_, ?_, ?_⟩
  all_goals first
    | (intro t n
       exact ⟨(heap_agrees ord n).1 t, (heap_agrees ord n).2.1 t,
         (heap_agrees ord n).2.2.1 t⟩)
    | (cases h : ord none none <;>
        simp [Heap.to_str, Heap.to_str_ex1, Heap.to_str_ex2, Heap.Expr.accept,
          Heap.visit_Expr, Heap.dynamic_cast_ExtendedExpr1, Heap.dynamic_cast_ExtendedExpr2,
          Heap.ExtendedExpr1.accept, Heap.ExtendedExpr2.accept, Heap.visit_Plus,
          Heap.visit_Minus, Heap.visit_Mult, Heap.visit_Div, Heap.visit_Mod, Heap.visit_Pow,
          Heap.visit_Min, Heap.visit_Max, Heap.evaluate, Outcome.both, Outcome.bind,
          Outcome.map, h])


end Mach7
